import Mathlib

/-!
Verification of the Cuchi Tales / Tiny Wings 3D core against its
natural-language specification.

The development shallowly embeds the three core modules of the repository:

* `GM`  — `modules/GameManager.js` (island streaming, collisions, score,
  power-up timers, game-over handling), modelled over `ℚ`/`ℤ`/`ℕ` so that
  every definition is executable and concrete runs can be settled by `decide`.
* `TG`  — `modules/TerrainGenerator.js` (key-point generation, cosine curve
  sampling, vertex-height lookup).  The z-machinery is rational and
  executable; the cosine sample values live in `ℝ`.
* `PC`  — `modules/PlayerControls.js` (per-tick ground-following controller),
  modelled over `ℝ` together with the three.js quaternion operations the
  module calls into.

JavaScript numbers are modelled as exact rationals/reals; `Math.random()`
draws, loaded assets, and ray-cast/bounding-box results produced by the
external three.js / cannon-es collaborators are oracle inputs, exactly as
the specification's §6 declares them external capabilities.
-/

namespace TinyWings

/-- Model of JavaScript `String.prototype.includes` restricted to the way the
repository uses it (`object.name.includes('Enemy')` etc.): `subAt sub hay`
tests whether `sub` occurs at the front of `hay`. -/
def subAt : List Char → List Char → Bool
  | [], _ => true
  | _ :: _, [] => false
  | a :: as, b :: bs => a == b && subAt as bs

/-- Does `sub` occur somewhere inside `hay`? -/
def inclAux (sub : List Char) : List Char → Bool
  | [] => subAt sub []
  | c :: cs => subAt sub (c :: cs) || inclAux sub cs

/-- JavaScript `s.includes(sub)`. -/
def strIncludes (s sub : String) : Bool := inclAux sub.toList s.toList

/-! ## Game Manager (`modules/GameManager.js`) -/

namespace GM

/-- Audio cues dispatched through the `AudioManager` effects sink. -/
inductive Cue | background | collect | impact | gameover
  deriving DecidableEq, Repr

/-- Rational 3-vector (used for positions and the CANNON world gravity). -/
structure Vec3q where
  x : ℚ
  y : ℚ
  z : ℚ
  deriving DecidableEq, Repr

/-- Axis-aligned box, as in three.js `Box3`. -/
structure Box3 where
  lo : Vec3q
  hi : Vec3q
  deriving DecidableEq, Repr

/-- three.js `Box3.prototype.intersectsBox`, called as
`objectCollider.intersectsBox(playerBox)`: using separating-axis tests,
returns `false` iff the boxes are disjoint on some axis. -/
def intersectsBox (this other : Box3) : Bool :=
  !(other.hi.x < this.lo.x || other.lo.x > this.hi.x ||
    other.hi.y < this.lo.y || other.lo.y > this.hi.y ||
    other.hi.z < this.lo.z || other.lo.z > this.hi.z)

/-- `GameManager.update` builds the player AABB with `setFromObject` and then
shrinks it: `playerBox.max.x -= 18; playerBox.max.y -= 15; playerBox.max.z -= 18`. -/
def adjustPlayerBox (b : Box3) : Box3 :=
  { b with hi := ⟨b.hi.x - 18, b.hi.y - 15, b.hi.z - 18⟩ }

/-- A scene object owned by one of an island's child groups (`Objects`,
`Clouds`, `Terrain Assets`).  `oid` models the JavaScript object reference
(so that `Group.remove(object)` can be expressed); `box` is the world AABB
that `Box3().setFromObject(object)` would report; `posY` is the island-local
`object.position.y` used by the trailing-removal pass; `scale` is the uniform
scale the power-ups mutate; `childCount` stands for the object's children
(disposed by the trailing-removal pass). -/
structure Obj where
  oid : ℕ
  name : String
  box : Box3
  posY : ℚ
  scale : ℚ
  childCount : ℕ
  deriving DecidableEq, Repr

/-- One generated island as the manager sees it: `num` is the number parsed
back out of the mesh name `Island ${n}` (the generator clamps `n` to `[0,9]`
before naming the mesh), `length`/`start`/`endZ` are the `terrain` metadata
(`end` is a Lean keyword, hence `endZ`), and the three lists are the children
of the `Objects`, `Clouds` and `Terrain Assets` groups. -/
structure Island where
  num : ℕ
  length : ℚ
  start : ℚ
  endZ : ℚ
  objects : List Obj
  clouds : List Obj
  assets : List Obj
  deriving DecidableEq, Repr

/-- What a `setTimeout` callback would do when it fires.  The shrink
power-up schedules one restore callback per enemy and per cloud, each
closing over that entity. -/
inductive TimerAction
  | invisibleOff
  | enemyRestore (oid : ℕ)
  | cloudRestore (oid : ℕ)
  deriving DecidableEq, Repr

/-- A pending browser timeout: numeric id, scheduled action, absolute fire
time in milliseconds. -/
structure Timer where
  id : ℕ
  action : TimerAction
  fire : ℕ
  deriving DecidableEq, Repr

/-- Entries of the `#smallerEnemiesTimeoutIds` array.  Besides timeout ids it
also ends up holding a function and the number `6000`, because line 538 of
`GameManager.js` calls `push(_ => this.#smallerEnemies = false, 6 * 1000)`
instead of `push(setTimeout(...))`. -/
inductive TimeoutRef
  | tid (n : ℕ)
  | fnRef
  | numRef (k : ℕ)
  deriving DecidableEq, Repr

/-- Is a timer one of the shrink-effect restore timers? -/
def isShrinkTimer (t : Timer) : Bool :=
  match t.action with
  | .enemyRestore _ => true
  | .cloudRestore _ => true
  | .invisibleOff => false

/-- Is a timer the invisibility-expiry timer? -/
def isInvisTimer (t : Timer) : Bool :=
  match t.action with
  | .invisibleOff => true
  | _ => false

/-- Full Game Manager state (the class fields that the claims touch), plus a
browser-timer model: `pending` is the set of scheduled timeouts, `nextTimerId`
the next fresh timeout id (browser ids are ≥ 1), `now` the current time in
milliseconds. -/
structure GMState where
  gameOver : Bool
  score : ℤ
  playerY : ℚ
  playerZ : ℚ
  worldGravity : Vec3q
  current : Island
  next : Island
  islandNumber : ℕ
  playerIsland : ℕ
  terrainObjects : ℤ
  invisible : Bool
  invisibleTimeoutId : Option ℕ
  smallerEnemies : Bool
  smallerEnemiesTimeoutIds : List TimeoutRef
  pending : List Timer
  nextTimerId : ℕ
  now : ℕ
  deriving DecidableEq, Repr

/-- Per-tick oracle inputs: the raw player AABB reported by
`Box3().setFromObject(player.mesh)`, and the randomness-dependent outputs a
`generateTerrain` + `#populateIslandObjects` call would produce this tick
(terrain length, decoration/cloud children, populated objects). -/
structure GMTick where
  playerBoxRaw : Box3
  genLength : ℚ
  genClouds : List Obj
  genAssets : List Obj
  popObjects : List Obj
  deriving DecidableEq, Repr

/-- Observable effects of one manager tick: audio cues in dispatch order,
island numbers generated by `generateTerrain`, island numbers whose
render/collision resources and children were disposed. -/
structure GMEvents where
  cues : List Cue
  generated : List ℕ
  disposedIslands : List ℕ
  deriving DecidableEq, Repr

/-- No effects. -/
def noEvents : GMEvents := ⟨[], [], []⟩

/-- `#clamp = (number, min, max) => Math.min(Math.max(number, min), max)`. -/
def gmClamp (n lo hi : ℤ) : ℤ := min (max n lo) hi

/-- The `score` setter (`this.#score = value`, plus the UI sink update which
has no further state). -/
def setScore (s : GMState) (v : ℤ) : GMState := { s with score := v }

/-- `#gameOver()`: show the game-over screen, pause audio, play the
game-over cue, and set the CANNON world gravity to `(0,0,0)`. -/
def gameOverRoutine (s : GMState) : GMState × List Cue :=
  ({ s with worldGravity := ⟨0, 0, 0⟩ }, [Cue.gameover])

/-- `clearTimeout(ref)`: cancels the pending timeout with that id; calling it
on a non-id value (the function/number the shrink branch pushed) is a no-op. -/
def clearTimeoutRef (s : GMState) (ref : TimeoutRef) : GMState :=
  match ref with
  | .tid n => { s with pending := s.pending.filter (fun tm => tm.id ≠ n) }
  | _ => s

/-- `ids.forEach(id => clearTimeout(id))`. -/
def clearAllRefs (s : GMState) (refs : List TimeoutRef) : GMState :=
  refs.foldl clearTimeoutRef s

/-- The `Blue` branch of `#collisionWith`: if the invisibility power-up is
already active, clear the previous timeout; set the flag; schedule a fresh
10-second expiry and remember its id. -/
def blueBranch (s : GMState) : GMState × List Cue :=
  let s :=
    if s.invisible && s.invisibleTimeoutId.isSome then
      clearTimeoutRef s (.tid (s.invisibleTimeoutId.getD 0))
    else s
  let s := { s with invisible := true }
  let tid := s.nextTimerId
  let s := { s with
    pending := s.pending ++ [(⟨tid, .invisibleOff, s.now + 10000⟩ : Timer)],
    nextTimerId := tid + 1 }
  ({ s with invisibleTimeoutId := some tid }, [])

/-- One `forEach` pass of the `Green` branch: for each listed entity, push
`setTimeout(restore-this-entity, delay)` onto `#smallerEnemiesTimeoutIds`
(the scale mutation itself is applied to the island lists by the caller). -/
def scheduleMany (mk : ℕ → TimerAction) (delay : ℕ) :
    GMState → List Obj → GMState
  | s, [] => s
  | s, o :: rest =>
      let s := { s with
        pending := s.pending ++ [(⟨s.nextTimerId, mk o.oid, s.now + delay⟩ : Timer)],
        smallerEnemiesTimeoutIds := s.smallerEnemiesTimeoutIds ++ [.tid s.nextTimerId],
        nextTimerId := s.nextTimerId + 1 }
      scheduleMany mk delay s rest

/-- The `Green` branch of `#collisionWith`: read the current island's clouds
and enemies; if the shrink effect is active and ids were recorded, clear all
of those timeouts (the id array itself is never emptied); set the flag;
shrink every enemy to scale 0.03 and every cloud to 0.09, scheduling one
6-second restore timeout per entity; finally (source line 538) push a raw
function and the number 6000 onto the id array instead of scheduling the
flag-reset timeout. -/
def greenBranch (s : GMState) : GMState × List Cue :=
  let clouds := s.current.clouds
  let enemies := s.current.objects.filter (fun o => strIncludes o.name "Enemy")
  let s :=
    if s.smallerEnemies && !s.smallerEnemiesTimeoutIds.isEmpty then
      clearAllRefs s s.smallerEnemiesTimeoutIds
    else s
  let s := { s with smallerEnemies := true }
  let s := { s with current := { s.current with
    objects := s.current.objects.map
      (fun o => if strIncludes o.name "Enemy" then { o with scale := 3/100 } else o) } }
  let s := scheduleMany TimerAction.enemyRestore 6000 s enemies
  let s := { s with current := { s.current with
    clouds := s.current.clouds.map (fun o => { o with scale := 9/100 }) } }
  let s := scheduleMany TimerAction.cloudRestore 6000 s clouds
  let s := { s with smallerEnemiesTimeoutIds :=
    s.smallerEnemiesTimeoutIds ++ [.fnRef, .numRef 6000] }
  (s, [])

/-- `#collisionWith(object)`: name-substring dispatch on the collided
object, in source order. -/
def collisionWith (s : GMState) (name : String) : GMState × List Cue :=
  if strIncludes name "Score Object" then
    (setScore s (s.score + 1), [Cue.collect])
  else if strIncludes name "Enemy" then
    if s.score ≤ 0 then (s, [Cue.impact])
    else (setScore s (s.score - 1), [Cue.impact])
  else if strIncludes name "Cloud" then
    gameOverRoutine { s with gameOver := true }
  else if strIncludes name "Pink" then
    (setScore s (s.score * 2), [])
  else if strIncludes name "Blue" then
    blueBranch s
  else if strIncludes name "Green" then
    greenBranch s
  else (s, [])

/-- `#generateNewIsland()`: dispose the old current island's mesh, body,
geometry, material and child objects; promote `next` to `current`; call
`generateTerrain(islandNumber + 1, terrainObjects, cloudObjects)` (which
clamps the island number to `[0,9]` and names the mesh accordingly) for the
new `next`; position it after the new current with the fixed 3000 gap and
1000 overhang; and populate the new current island with model objects. -/
def generateNewIsland (s : GMState) (t : GMTick) : GMState × GMEvents :=
  let disposedNum := s.current.num
  let promoted := s.next
  let newNum := min (s.islandNumber + 1) 9
  let fresh : Island :=
    { num := newNum, length := t.genLength,
      start := promoted.endZ - 3000,
      endZ := (promoted.endZ - 3000) - (t.genLength + 1000),
      objects := [], clouds := t.genClouds, assets := t.genAssets }
  let promoted := { promoted with objects := promoted.objects ++ t.popObjects }
  ({ s with current := promoted, next := fresh },
   { noEvents with generated := [newNum], disposedIslands := [disposedNum] })

/-- `#updatePlayerIsland()`: while the player's z is strictly between the
current island's end and start, just record the island number parsed from
the current mesh name; once the player is more than 400 units past the
current island's end, parse the next island's number, update
`islandNumber`/`terrainObjects`, and generate the new island. -/
def updatePlayerIsland (s : GMState) (t : GMTick) : GMState × GMEvents :=
  let pz := s.playerZ
  if s.current.endZ < pz ∧ pz < s.current.start then
    ({ s with playerIsland := s.current.num }, noEvents)
  else if pz + 400 < s.current.endZ then
    let s := { s with playerIsland := s.next.num }
    let s := { s with islandNumber := s.playerIsland }
    let s := { s with terrainObjects :=
      s.terrainObjects + gmClamp (4 * (s.islandNumber : ℤ)) 0 90 }
    generateNewIsland s t
  else (s, noEvents)

/-- One iteration of the collision loop in `update`: skip enemies while
invisible; skip non-overlapping objects; otherwise remove the object from
the `Objects` group (unless it is a cloud) and dispatch `#collisionWith`. -/
def processObject (playerBox : Box3) (acc : GMState × GMEvents) (o : Obj) :
    GMState × GMEvents :=
  let (s, ev) := acc
  if s.invisible && strIncludes o.name "Enemy" then acc
  else if !intersectsBox o.box playerBox then acc
  else
    let s :=
      if !strIncludes o.name "Cloud" then
        { s with current := { s.current with
          objects := s.current.objects.filter (fun x => x.oid ≠ o.oid) } }
      else s
    let c := collisionWith s o.name
    (c.1, { ev with cues := ev.cues ++ c.2 })

/-- The "remove objects as player passes them" pass at the end of `update`:
any live object of the current island whose world z (local y plus terrain
centre) is more than 400 units behind the player has all of its children
disposed and removed. -/
def passedObjectsPhase (s : GMState) : GMState :=
  let center := s.current.start - s.current.length / 2
  let strip := fun (o : Obj) =>
    if o.posY + center > s.playerZ + 400 then { o with childCount := 0 } else o
  { s with current := { s.current with
      objects := s.current.objects.map strip,
      clouds := s.current.clouds.map strip,
      assets := s.current.assets.map strip } }

/-- `GameManager.update()`: early-return once the game is over; end the game
if the player fell below y = −800; otherwise stream islands, run the
collision loop over the current island's objects (plus clouds unless
invisible), and dispose passed objects. -/
def update (s : GMState) (t : GMTick) : GMState × GMEvents :=
  if s.gameOver then (s, noEvents)
  else if s.playerY < -800 then
    let r := gameOverRoutine { s with gameOver := true }
    (r.1, { noEvents with cues := r.2 })
  else
    let r1 := updatePlayerIsland s t
    let playerBox := adjustPlayerBox t.playerBoxRaw
    let snapshot :=
      if !r1.1.invisible then r1.1.current.objects ++ r1.1.current.clouds
      else r1.1.current.objects
    let r2 := snapshot.foldl (processObject playerBox) r1
    (passedObjectsPhase r2.1, r2.2)

end GM

/-! ## Terrain Generator (`modules/TerrainGenerator.js`)

`#generateIslandStart` builds up to 20 key points by accumulating a random
forward z-step and an alternating-sign y-step, joins consecutive key points
with cosine curves sampled every ≈2 units, and then assigns every vertex of
a `PlaneBufferGeometry` the height of the curve sample whose z lies within
the ±6 window of the vertex's (offset) y coordinate.

The z-coordinates involve only rational arithmetic and are embedded
executably over `ℚ`, with the `Math.random()` draws for the z-steps given as
an oracle stream `rz` (each draw lies in `[0,1)`).  The sampled y-values
(which do involve `Math.cos`) are embedded over `ℝ`. -/

namespace TG

/-- One forward z-step: `z += minRangeZ + Math.random() * rangeZ` with
`minRangeZ = 450`, `rangeZ = 80`; `rz i` is the i-th `Math.random()` draw. -/
def stepZ (rz : ℕ → ℚ) (i : ℕ) : ℚ := 450 + rz i * 80

/-- Value of the accumulator `z` after loop iteration `i`. -/
def zAfter (rz : ℕ → ℚ) : ℕ → ℚ
  | 0 => stepZ rz 0
  | i + 1 => zAfter rz i + stepZ rz (i + 1)

/-- `keyPoints[i].z`: the first key point is pushed with z = 0 (the `i === 0`
branch), later ones with the accumulated z. -/
def keyZ (rz : ℕ → ℚ) (i : ℕ) : ℚ := if i = 0 then 0 else zAfter rz i

/-- z-extent of the pair `(keyPoints[p], keyPoints[p+1])`
(`point1.z - point0.z`). -/
def gapZ (rz : ℕ → ℚ) (p : ℕ) : ℚ := keyZ rz (p + 1) - keyZ rz p

/-- `horizontalSegments = Math.floor((point1.z - point0.z) / segmentWidth)`
with `segmentWidth = 2`. -/
def hSegs (rz : ℕ → ℚ) (p : ℕ) : ℤ := ⌊gapZ rz p / 2⌋

/-- `delta_z = (point1.z - point0.z) / horizontalSegments`. -/
def deltaZ (rz : ℕ → ℚ) (p : ℕ) : ℚ := gapZ rz p / (hSegs rz p : ℚ)

/-- z-coordinate of the j-th intermediate point of pair `p`
(`point0.z + j * delta_z`). -/
def sampleZ (rz : ℕ → ℚ) (p j : ℕ) : ℚ := keyZ rz p + j * deltaZ rz p

/-- The z-coordinates the inner loop (`j = 0 .. horizontalSegments`) pushes
onto `curvePoints` for pair `p`. -/
def pairSamples (rz : ℕ → ℚ) (p : ℕ) : List ℚ :=
  (List.range ((hSegs rz p).toNat + 1)).map (sampleZ rz p)

/-- z-coordinates of the full `curvePoints` sequence: the outer loop runs
`i = 1 .. 19` over pairs `(keyPoints[i-1], keyPoints[i])`. -/
def curveZ (rz : ℕ → ℚ) : List ℚ := (List.range 19).flatMap (pairSamples rz)

/-- `this.#terrainLength = curvePoints[curvePoints.length - 1].z -
curvePoints[0].z`. -/
def terrainLength (rz : ℕ → ℚ) : ℚ := (curveZ rz).getLastD 0 - (curveZ rz).headD 0

/-- Row count of `PlaneBufferGeometry(width, length, 1, length * 0.05)`:
three.js floors the height-segment parameter (`gridY = Math.floor(heightSegments)`). -/
def gridY (rz : ℕ → ℚ) : ℤ := ⌊terrainLength rz * (5 / 100)⌋

/-- Vertex count of the plane: `(gridY + 1)` rows of `widthSegments + 1 = 2`
vertices. -/
def vertexCount (rz : ℕ → ℚ) : ℕ := 2 * ((gridY rz).toNat + 1)

/-- `position.getY(i)` of the plane: three.js plane rows run
`y = height/2 - iy * (height/gridY)`, two vertices per row, so vertex `i`
sits in row `i / 2`. -/
def vertexY (rz : ℕ → ℚ) (i : ℕ) : ℚ :=
  terrainLength rz / 2 - ((i / 2 : ℕ) : ℚ) * (terrainLength rz / (gridY rz : ℚ))

/-- `firstVertexY = position.getY(0)`. -/
def firstVertexY (rz : ℕ → ℚ) : ℚ := vertexY rz 0

/-- The predicate of `curvePoints.find(({ z }) => zFloor === yFloor ||
(yFloor - 6 < zFloor && zFloor < yFloor + 6))` where `yFloor = y + firstVertexY`. -/
def findPred (v z : ℚ) : Bool := z == v || (decide (v - 6 < z) && decide (z < v + 6))

/-- The `curvePoints.find(...)` call restricted to the z-coordinates it
inspects; returns the z of the matched curve sample. -/
def findCurve (zs : List ℚ) (v : ℚ) : Option ℚ := zs.find? (findPred v)

/-- The height assignment for vertex `i`: `setZ(i, curveValue.y)` reads the
matched curve sample; when `find` returns `undefined` the property access
throws a `TypeError`, so a miss is a hard error and never a silently
written height.  The model returns the matched sample's z-coordinate
(standing in for the matched sample; only the success/failure of the lookup
is at issue). -/
def vertexLookup (rz : ℕ → ℚ) (i : ℕ) : Except String ℚ :=
  match findCurve (curveZ rz) (vertexY rz i + firstVertexY rz) with
  | some z => .ok z
  | none => .error "TypeError: cannot read properties of undefined"

/-- Curve midline for a key-point pair: `y_mid = (point0.y + point1.y) / 2`. -/
noncomputable def yMid (p0y p1y : ℝ) : ℝ := (p0y + p1y) / 2

/-- Curve amplitude for a key-point pair:
`amplitude = (point0.y - point1.y) / 2`. -/
noncomputable def amplitude (p0y p1y : ℝ) : ℝ := (p0y - p1y) / 2

/-- y-coordinate of the j-th intermediate point of a key-point pair with
`horizontalSegments = n`:
`y_mid + amplitude * Math.cos(j * delta_theta)` with `delta_theta = π / n`. -/
noncomputable def sampleY (p0y p1y : ℝ) (n j : ℕ) : ℝ :=
  yMid p0y p1y + amplitude p0y p1y * Real.cos (j * (Real.pi / n))

/-- z-coordinate of the j-th intermediate point, real-valued form
(`point0.z + j * delta_z`). -/
noncomputable def sampleZR (p0z p1z : ℝ) (n j : ℕ) : ℝ :=
  p0z + j * ((p1z - p0z) / n)

end TG

/-! ## Player Controls (`modules/PlayerControls.js`)

The controller is embedded over `ℝ`.  The three.js vector/quaternion
operations the module calls (`applyQuaternion`, `setFromAxisAngle`,
`multiply`, `rotateTowards`/`slerp`, `normalize`, `length`) are modelled
from the vendored three.js library.  Ray-cast results against the resident
terrain are oracle inputs of each tick (§6 of the spec declares
ray-intersection an external capability): each ray yields an optional hit
with its distance, intersection point height, face normal, and the hit
object's world quaternion. -/

namespace PC

/-- three.js `Vector3` (real-valued). -/
structure V3 where
  x : ℝ
  y : ℝ
  z : ℝ

/-- three.js `Quaternion`. -/
structure Quat where
  w : ℝ
  x : ℝ
  y : ℝ
  z : ℝ

/-- `Vector3.prototype.length`. -/
noncomputable def vLength (v : V3) : ℝ := Real.sqrt (v.x ^ 2 + v.y ^ 2 + v.z ^ 2)

/-- `Vector3.prototype.normalize`: `divideScalar(this.length() || 1)` (the
JavaScript `||` guards a zero length). -/
noncomputable def vNormalize (v : V3) : V3 :=
  let l0 := vLength v
  let l := if l0 = 0 then 1 else l0
  ⟨v.x / l, v.y / l, v.z / l⟩

/-- `Vector3.prototype.multiplyScalar`. -/
noncomputable def vScale (v : V3) (k : ℝ) : V3 := ⟨v.x * k, v.y * k, v.z * k⟩

/-- `Vector3.prototype.dot`. -/
noncomputable def vDot (a b : V3) : ℝ := a.x * b.x + a.y * b.y + a.z * b.z

/-- `Quaternion.prototype.setFromAxisAngle` (axis assumed normalized). -/
noncomputable def qFromAxisAngle (axis : V3) (angle : ℝ) : Quat :=
  let h := angle / 2
  let s := Real.sin h
  ⟨Real.cos h, axis.x * s, axis.y * s, axis.z * s⟩

/-- `Quaternion.prototype.multiplyQuaternions` (`a.multiply(b)` is
`multiplyQuaternions(a, b)`). -/
noncomputable def qMul (a b : Quat) : Quat :=
  ⟨a.w * b.w - a.x * b.x - a.y * b.y - a.z * b.z,
   a.x * b.w + a.w * b.x + a.y * b.z - a.z * b.y,
   a.y * b.w + a.w * b.y + a.z * b.x - a.x * b.z,
   a.z * b.w + a.w * b.z + a.x * b.y - a.y * b.x⟩

/-- `Quaternion.prototype.conjugate`. -/
noncomputable def qConjugate (q : Quat) : Quat := ⟨q.w, -q.x, -q.y, -q.z⟩

/-- `Quaternion.prototype.dot`. -/
noncomputable def qDot (a b : Quat) : ℝ := a.w * b.w + a.x * b.x + a.y * b.y + a.z * b.z

/-- `MathUtils.clamp(value, min, max) = Math.max(min, Math.min(max, value))`. -/
noncomputable def mclamp (v lo hi : ℝ) : ℝ := max lo (min hi v)

/-- `Quaternion.prototype.angleTo`:
`2 * Math.acos(Math.abs(MathUtils.clamp(this.dot(q), -1, 1)))`. -/
noncomputable def qAngleTo (a b : Quat) : ℝ :=
  2 * Real.arccos |mclamp (qDot a b) (-1) 1|

/-- `Vector3.prototype.applyQuaternion`. -/
noncomputable def applyQuat (v : V3) (q : Quat) : V3 :=
  let ix := q.w * v.x + q.y * v.z - q.z * v.y
  let iy := q.w * v.y + q.z * v.x - q.x * v.z
  let iz := q.w * v.z + q.x * v.y - q.y * v.x
  let iw := -q.x * v.x - q.y * v.y - q.z * v.z
  ⟨ix * q.w + iw * -q.x + iy * -q.z - iz * -q.y,
   iy * q.w + iw * -q.y + iz * -q.x - ix * -q.z,
   iz * q.w + iw * -q.z + ix * -q.y - iy * -q.x⟩

/-- `Number.EPSILON` = 2⁻⁵². -/
noncomputable def jsEpsilon : ℝ := 1 / 2 ^ 52

/-- `Math.atan2`. -/
noncomputable def atan2 (y x : ℝ) : ℝ :=
  if 0 < x then Real.arctan (y / x)
  else if x < 0 then
    (if 0 ≤ y then Real.arctan (y / x) + Real.pi else Real.arctan (y / x) - Real.pi)
  else if 0 < y then Real.pi / 2
  else if y < 0 then -(Real.pi / 2)
  else 0

/-- `Quaternion.prototype.normalize` (length-0 quaternions become the
identity, as in three.js). -/
noncomputable def qNormalize (q : Quat) : Quat :=
  let l := Real.sqrt (q.w ^ 2 + q.x ^ 2 + q.y ^ 2 + q.z ^ 2)
  if l = 0 then ⟨1, 0, 0, 0⟩ else ⟨q.w / l, q.x / l, q.y / l, q.z / l⟩

/-- `Quaternion.prototype.slerp(qb, t)` of the vendored three.js: exact
shortcuts at `t = 0` and `t = 1`; sign-flip of `qb` when the dot product is
negative; early out when the quaternions (almost) coincide; linear
interpolation + normalize below `Number.EPSILON`; otherwise the standard
sine-ratio formula. -/
noncomputable def slerp (qa qb : Quat) (t : ℝ) : Quat :=
  if t = 0 then qa
  else if t = 1 then qb
  else
    let cosHalfTheta0 := qDot qa qb
    let qm : Quat := if cosHalfTheta0 < 0 then ⟨-qb.w, -qb.x, -qb.y, -qb.z⟩ else qb
    let cosHalfTheta := if cosHalfTheta0 < 0 then -cosHalfTheta0 else cosHalfTheta0
    if 1 ≤ cosHalfTheta then qa
    else
      let sqrSinHalfTheta := 1 - cosHalfTheta * cosHalfTheta
      if sqrSinHalfTheta ≤ jsEpsilon then
        let s := 1 - t
        qNormalize ⟨s * qa.w + t * qm.w, s * qa.x + t * qm.x,
                    s * qa.y + t * qm.y, s * qa.z + t * qm.z⟩
      else
        let sinHalfTheta := Real.sqrt sqrSinHalfTheta
        let halfTheta := atan2 sinHalfTheta cosHalfTheta
        let ratioA := Real.sin ((1 - t) * halfTheta) / sinHalfTheta
        let ratioB := Real.sin (t * halfTheta) / sinHalfTheta
        ⟨qa.w * ratioA + qm.w * ratioB, qa.x * ratioA + qm.x * ratioB,
         qa.y * ratioA + qm.y * ratioB, qa.z * ratioA + qm.z * ratioB⟩

/-- `Quaternion.prototype.rotateTowards(q, step)`: move by at most `step`
radians towards `q`, arriving exactly when the angular distance is within
`step`. -/
noncomputable def rotateTowards (qa qb : Quat) (step : ℝ) : Quat :=
  let angle := qAngleTo qa qb
  if angle = 0 then qa
  else slerp qa qb (min 1 (step / angle))

/-- One ray-cast hit (`intersectObjects(...)[0]`): distance from the ray
origin, the intersection point's world y, the hit face's (unit) normal in
mesh-local coordinates, and the hit object's world quaternion (used by
`getWorldQuaternion`). -/
structure Hit where
  distance : ℝ
  pointY : ℝ
  faceNormal : V3
  objectWorldQuat : Quat

/-- The four per-tick ray results in the order the module stores its
raycasters: `down`, `diagonal`, `forward` (each with finite range
`playerRadius + 5`) and the unbounded world-up ray. -/
structure Rays where
  down : Option Hit
  diag : Option Hit
  fwd : Option Hit
  up : Option Hit

/-- Held keys for one tick (`a`, `d`, space = descend, enter = start). -/
structure Keys where
  a : Bool
  d : Bool
  space : Bool
  enter : Bool

/-- `filter(intersect => intersect !== undefined)` over listed ray slots. -/
def definedHits (l : List (Option Hit)) : List Hit := l.filterMap id

/-- `intersects.slice(0, intersects.length - 1)`: the three bounded rays. -/
def boundedHits (r : Rays) : List Hit := definedHits [r.down, r.diag, r.fwd]

/-- All four ray results (the order of `Object.keys(#raycastersGround)`). -/
def allHits (r : Rays) : List Hit := definedHits [r.down, r.diag, r.fwd, r.up]

/-- Head of the list after `sort((a, b) => a.distance - b.distance)`: the
first element of minimal distance (JavaScript `Array.sort` is stable). -/
noncomputable def minIntersect : List Hit → Option Hit
  | [] => none
  | h :: t =>
      match minIntersect t with
      | none => some h
      | some m => if m.distance < h.distance then some m else some h

/-- Controller state: the player transform, the `#moveVelocity` vector, the
rotation bookkeeping quaternions, the physics scalars, and the mutable
configuration fields of the class. -/
structure PCState where
  pos : V3
  vel : V3
  quat : Quat
  rotQ : Quat
  hRotQ : Quat
  vRotQ : Quat
  vAccel : ℝ
  isGrounded : Bool
  groundFirstImpact : Bool
  startGame : Bool
  playerRadius : ℝ
  playerMass : ℝ
  gravity : ℝ
  moveSpeed : ℝ
  rotateStep : ℝ
  turnSpeed : ℝ

/-- `#playerWeight = #playerMass * #gravity` (kept in sync by the setters). -/
noncomputable def playerWeight (s : PCState) : ℝ := s.playerMass * s.gravity

/-- The position integration at the top of `update`:
`position.y += moveVelocity.y * dt + 1/2 * verticalAcceleration * dt` (the
source multiplies the acceleration term by `deltaTime`, not `deltaTime²`)
and `position.z += moveVelocity.z * dt`. -/
noncomputable def movePhase (s : PCState) (dt : ℝ) : PCState :=
  { s with pos := ⟨s.pos.x,
      s.pos.y + s.vel.y * dt + 1 / 2 * s.vAccel * dt,
      s.pos.z + s.vel.z * dt⟩ }

/-- The minimum-forward-speed enforcement:
`if (Math.abs(moveVelocity.z) < moveSpeed) moveVelocity.z =
Math.sign(moveVelocity.z) * moveSpeed`. -/
noncomputable def minSpeedPhase (s : PCState) : PCState :=
  if |s.vel.z| < s.moveSpeed then
    { s with vel := ⟨s.vel.x, s.vel.y, Real.sign s.vel.z * s.moveSpeed⟩ }
  else s

/-- `#applyGlobalGravity(deltaTime)`: sets `verticalAcceleration` to the
player weight and integrates it into `moveVelocity.y` — with no grounded
guard. -/
noncomputable def applyGlobalGravity (s : PCState) (dt : ℝ) : PCState :=
  let w := playerWeight s
  { s with vAccel := w, vel := ⟨s.vel.x, s.vel.y + w * dt, s.vel.z⟩ }

/-- `#applyGravity(deltaTime)`: early-return while grounded, otherwise apply
four times the player weight. -/
noncomputable def applyGravity (s : PCState) (dt : ℝ) : PCState :=
  if s.isGrounded then s
  else
    let w := playerWeight s * 4
    { s with vAccel := w, vel := ⟨s.vel.x, s.vel.y + w * dt, s.vel.z⟩ }

/-- `#movePlayerHorizontally(deltaTime)` (the "temporary solution"):
sidestep by a third of the current speed. -/
noncomputable def movePlayerHorizontally (s : PCState) (k : Keys) (dt : ℝ) : PCState :=
  if k.a then { s with pos := ⟨s.pos.x - vLength s.vel / 3 * dt, s.pos.y, s.pos.z⟩ }
  else if k.d then { s with pos := ⟨s.pos.x + vLength s.vel / 3 * dt, s.pos.y, s.pos.z⟩ }
  else s

/-- The grounded test: among the three bounded rays' defined hits, take the
smallest distance and compare with `1 + playerRadius` (an empty result
compares as `undefined <= …`, i.e. `false`). -/
noncomputable def groundedCheck (s : PCState) (r : Rays) : Bool :=
  match minIntersect (boundedHits r) with
  | none => false
  | some h => if h.distance ≤ 1 + s.playerRadius then true else false

/-- `#rotatePlayerOnGround(intersects)`: take the defined hit of smallest
distance (the source filters all four slots here, up ray included), rotate
its face normal by the conjugate of the hit object's world quaternion,
derive the slope angle, rotate the player towards it (instantly on first
impact, else by `rotateStep`), and rebuild `moveVelocity` from the player's
facing direction at the previous speed.  (The `!intersects` guard of the
source never fires — an array is always truthy — and the grounded guard at
the call site makes the no-hit case unreachable; it is mapped to the
identity.) -/
noncomputable def rotatePlayerOnGround (s : PCState) (r : Rays) : PCState :=
  match minIntersect (allHits r) with
  | none => s
  | some intersect =>
      let worldUp : V3 := ⟨0, 1, 0⟩
      let faceRotation := qConjugate intersect.objectWorldQuat
      let normal := applyQuat intersect.faceNormal faceRotation
      let moveAngle :=
        Real.sign normal.z *
          Real.arccos (vDot worldUp normal / (vLength worldUp * vLength normal))
      let step := if s.groundFirstImpact then (100 : ℝ) else s.rotateStep
      let s1 := { s with groundFirstImpact := false }
      let vq := qFromAxisAngle ⟨1, 0, 0⟩ moveAngle
      let rq := qMul vq s1.hRotQ
      let pq := rotateTowards s1.quat rq step
      let spd := vLength s1.vel
      let vel := vScale (vNormalize (applyQuat ⟨0, 0, -1⟩ pq)) spd
      { s1 with vRotQ := vq, rotQ := rq, quat := pq, vel := vel }

/-- `#clampPlayerToGround(intersects)`: using the smallest bounded-ray hit,
lift the player by the penetration depth when the hit is within the player
radius.  (The no-hit case is unreachable under the grounded guard.) -/
noncomputable def clampPlayerToGround (s : PCState) (r : Rays) : PCState :=
  match minIntersect (boundedHits r) with
  | none => s
  | some intersect =>
      if intersect.distance ≤ s.playerRadius then
        { s with pos := ⟨s.pos.x, s.pos.y + |s.playerRadius - intersect.distance|, s.pos.z⟩ }
      else s

/-- `#rotatePlayerOnAir()`: re-arm the first-impact flag, orient by the
velocity direction (sign of the vertical component times the angle between
world-forward and the velocity), rotate by at most `rotateStep`, and rebuild
`moveVelocity` from the facing direction at the previous speed. -/
noncomputable def rotatePlayerOnAir (s : PCState) : PCState :=
  let s1 := { s with groundFirstImpact := true }
  let worldForward : V3 := ⟨0, 0, -1⟩
  let rotateAngle :=
    Real.sign s1.vel.y *
      Real.arccos (vDot worldForward s1.vel / (vLength worldForward * vLength s1.vel))
  let vq := qFromAxisAngle ⟨1, 0, 0⟩ rotateAngle
  let rq := qMul vq s1.hRotQ
  let pq := rotateTowards s1.quat rq s1.rotateStep
  let spd := vLength s1.vel
  let vel := vScale (vNormalize (applyQuat ⟨0, 0, -1⟩ pq)) spd
  { s1 with vRotQ := vq, rotQ := rq, quat := pq, vel := vel }

/-- The integration/velocity part of the tick, before the ray casts:
integrate position, enforce the minimum forward speed, apply gravity (plus
the space-key gravity), and handle the direction keys. -/
noncomputable def prePhases (s : PCState) (k : Keys) (dt : ℝ) : PCState :=
  let s := movePhase s dt
  let s := minSpeedPhase s
  let s := applyGlobalGravity s dt
  let s := if k.space then applyGravity s dt else s
  if k.a || k.d then movePlayerHorizontally s k dt else s

/-- The tick body after the start gate: run the integration/velocity
phases, classify grounded from the three bounded rays, and run the grounded
or airborne orientation branch. -/
noncomputable def tickBody (s : PCState) (k : Keys) (r : Rays) (dt : ℝ) : PCState :=
  let s := prePhases s k dt
  let g := groundedCheck s r
  let s := { s with isGrounded := g }
  if g then clampPlayerToGround (rotatePlayerOnGround s r) r
  else rotatePlayerOnAir s

/-- The final fall-through check of `update`:
`if (intersects[3] !== undefined) position.y = intersects[3].point.y + playerRadius`. -/
noncomputable def upTeleport (s : PCState) (r : Rays) : PCState :=
  match r.up with
  | some h => { s with pos := ⟨s.pos.x, h.pointY + s.playerRadius, s.pos.z⟩ }
  | none => s

/-- `PlayerControls.update(deltaTime)`: latch `startGame` on enter, early
return until started, then run the tick body followed by the up-ray
teleport. -/
noncomputable def update (s : PCState) (k : Keys) (r : Rays) (dt : ℝ) : PCState :=
  let s := if k.enter then { s with startGame := true } else s
  if s.startGame = false then s
  else upTeleport (tickBody s k r dt) r

end PC

/-! ## Concrete fixtures used by witnesses and counterexamples -/

namespace PC

/-- The controller state fixture: game started, moving forward at the
default speed, untilted, airborne. -/
noncomputable def pcBase : PCState :=
  { pos := ⟨0, 40, 950⟩, vel := ⟨0, 0, -100⟩,
    quat := ⟨1, 0, 0, 0⟩, rotQ := ⟨1, 0, 0, 0⟩,
    hRotQ := ⟨1, 0, 0, 0⟩, vRotQ := ⟨1, 0, 0, 0⟩,
    vAccel := 0, isGrounded := false, groundFirstImpact := true,
    startGame := true,
    playerRadius := 4, playerMass := 10, gravity := -981/100,
    moveSpeed := 100, rotateStep := 1/20, turnSpeed := 100 }

/-- The same fixture with the grounded flag set. -/
noncomputable def pcGrounded : PCState := { pcBase with isGrounded := true }

/-- A down-ray hit four units below the player. -/
noncomputable def hitDown : Hit :=
  { distance := 4, pointY := 36, faceNormal := ⟨0, 1, 0⟩,
    objectWorldQuat := ⟨1, 0, 0, 0⟩ }

/-- Ray results with only the down ray hitting. -/
noncomputable def raysDown : Rays :=
  { down := some hitDown, diag := none, fwd := none, up := none }

/-- Ray results with no hits at all. -/
noncomputable def raysNone : Rays :=
  { down := none, diag := none, fwd := none, up := none }

/-- No keys held. -/
def keysNone : Keys := ⟨false, false, false, false⟩

/-- A down-ray hit on a 30-degree slope of the island mesh: the face normal
is in mesh-local coordinates, and the island body is rotated by π/2 about x
(the generator's `quaternion.setFromEuler(Math.PI / 2, 0, 0)`), so its world
quaternion is `(cos π/4, sin π/4, 0, 0)`. -/
noncomputable def hitSlope : Hit :=
  { distance := 4, pointY := 36,
    faceNormal := ⟨0, -(1/2), Real.sqrt 3 / 2⟩,
    objectWorldQuat := ⟨Real.sqrt 2 / 2, Real.sqrt 2 / 2, 0, 0⟩ }

/-- Ray results with only the down ray hitting, on the slope. -/
noncomputable def raysSlope : Rays :=
  { down := some hitSlope, diag := none, fwd := none, up := none }

/-- The controller state after the integration/velocity phases of one tick
from `pcBase` with no keys held and dt = 1/100. -/
noncomputable def pcMid : PCState :=
  { pcBase with
    pos := ⟨0, 40, 949⟩,
    vel := ⟨0, -(981/1000), -100⟩,
    vAccel := -(981/10) }

/-- The same state with the grounded flag freshly set. -/
noncomputable def pcMidG : PCState := { pcMid with isGrounded := true }

/-- A slow-moving state for the clamp witness. -/
noncomputable def pcSlow : PCState := { pcBase with vel := ⟨0, 0, -50⟩ }

end PC

namespace GM

/-- A concrete first island (as positioned by the manager constructor:
`start = 950`, `end = start - (length + 1000)`). -/
def island0 : Island :=
  { num := 0, length := 5000, start := 950, endZ := -5050,
    objects := [], clouds := [], assets := [] }

/-- A concrete second island (`start = current.end - 3000`). -/
def island1 : Island :=
  { num := 1, length := 5000, start := -8050, endZ := -14050,
    objects := [], clouds := [], assets := [] }

/-- A concrete manager state at game start. -/
def baseState : GMState :=
  { gameOver := false, score := 0, playerY := 40, playerZ := 940,
    worldGravity := ⟨0, -981/100, 0⟩,
    current := island0, next := island1,
    islandNumber := 0, playerIsland := 0, terrainObjects := 40,
    invisible := false, invisibleTimeoutId := none,
    smallerEnemies := false, smallerEnemiesTimeoutIds := [],
    pending := [], nextTimerId := 1, now := 0 }

/-- A concrete tick oracle. -/
def baseTick : GMTick :=
  { playerBoxRaw := ⟨⟨-10, -10, -10⟩, ⟨30, 30, 30⟩⟩,
    genLength := 5000, genClouds := [], genAssets := [], popObjects := [] }

/-- A concrete collectible whose AABB overlaps the player fixture box. -/
def collectObj : Obj :=
  { oid := 5, name := "Score Object 1", box := ⟨⟨0, 0, 0⟩, ⟨10, 10, 10⟩⟩,
    posY := 0, scale := 3/10, childCount := 1 }

/-- A concrete hazard whose AABB overlaps the player fixture box. -/
def enemyObjA : Obj :=
  { oid := 7, name := "Enemy 2", box := ⟨⟨0, 0, 0⟩, ⟨10, 10, 10⟩⟩,
    posY := 0, scale := 1/20, childCount := 1 }

/-- A second concrete hazard. -/
def enemyObjB : Obj :=
  { oid := 8, name := "Enemy 3", box := ⟨⟨40, 0, 0⟩, ⟨60, 10, 10⟩⟩,
    posY := 0, scale := 1/20, childCount := 1 }

/-- A concrete cloud. -/
def cloudObjA : Obj :=
  { oid := 9, name := "Cloud 0", box := ⟨⟨90, 0, 0⟩, ⟨110, 10, 10⟩⟩,
    posY := 0, scale := 1/5, childCount := 1 }

/-- A concrete (already shrunk) player collision box fixture. -/
def playerHitBox : Box3 := ⟨⟨-5, -5, -5⟩, ⟨5, 5, 5⟩⟩

/-- Counterexample refuting C1 as stated: with the promoted island already
at number 9, the newly generated next island also gets number 9 (the
generator's clamp), not "one above the promoted segment's index". -/
def c1Current9 : Island :=
  { num := 9, length := 5000, start := 950, endZ := -5050,
    objects := [], clouds := [], assets := [] }

/-- The saturated next island fixture. -/
def c1Next9 : Island :=
  { num := 9, length := 5000, start := -8050, endZ := -14050,
    objects := [], clouds := [], assets := [] }

/-- A manager state deep into the run, with both islands at number 9 and
the player more than 400 units past the current island's end. -/
def c1SatState : GMState :=
  { baseState with
    current := c1Current9, next := c1Next9,
    islandNumber := 9, playerIsland := 9, playerZ := -5500 }

/-- A manager state whose current island holds two enemies and one cloud. -/
def c8State : GMState :=
  { baseState with
    current := { island0 with
      objects := [enemyObjA, enemyObjB], clouds := [cloudObjA] } }

/-- A manager state with the invisibility effect active and its expiry
timer (id 3) pending. -/
def blueFixState : GMState :=
  { baseState with
    invisible := true, invisibleTimeoutId := some 3,
    pending := [⟨3, .invisibleOff, 5000⟩], nextTimerId := 4, now := 7000 }

end GM

/-! ## Theorems -/

namespace GM

/-- Claim C10: once the game-over flag is set, every subsequent manager
update returns immediately without mutating score, islands, or entities;
and if the player's y drops below −800 at the start of a tick, the manager
sets the flag, zeroes the world gravity, plays the game-over cue, and does
no island streaming or collision processing from that tick onward. -/
theorem claim10_gameover_terminal (s : GMState) (t t2 : GMTick) :
    (s.gameOver = true → update s t = (s, noEvents)) ∧
    (s.gameOver = false → s.playerY < -800 →
      (update s t).1 = { s with gameOver := true, worldGravity := ⟨0, 0, 0⟩ } ∧
      (update s t).2 = { noEvents with cues := [Cue.gameover] } ∧
      update (update s t).1 t2 = ((update s t).1, noEvents)) := by
  constructor
  · intro h
    simp [update, h]
  · intro h hy
    have h1 : update s t
        = ({ s with gameOver := true, worldGravity := ⟨0, 0, 0⟩ },
           { noEvents with cues := [Cue.gameover] }) := by
      simp [update, h, hy, gameOverRoutine]
    refine ⟨by rw [h1], by rw [h1], ?_⟩
    rw [h1]
    simp [update]

/-- Witness for C10 at concrete states: a finished game's tick is inert, and
a fallen player's tick latches the terminal state. -/
theorem claim10_witness :
    update { baseState with gameOver := true } baseTick
      = ({ baseState with gameOver := true }, noEvents) ∧
    (update { baseState with playerY := -900 } baseTick).1
      = { baseState with
          playerY := -900, gameOver := true, worldGravity := ⟨0, 0, 0⟩ } := by
  constructor
  · exact (claim10_gameover_terminal { baseState with gameOver := true }
      baseTick baseTick).1 rfl
  · exact ((claim10_gameover_terminal { baseState with playerY := -900 }
      baseTick baseTick).2 rfl (by norm_num [baseState])).1

/-- Claim C9: an overlapping collectible increments the score by exactly 1,
fires the collect cue exactly once, and is removed from the live set; an
overlapping hazard at score 0 leaves the score at 0, still fires the impact
cue, and is still removed. -/
theorem claim9_collectible_hazard (s : GMState) (ev : GMEvents) (pb : Box3)
    (o : Obj)
    (hinv : s.invisible = false)
    (hover : intersectsBox o.box pb = true)
    (hnc : strIncludes o.name "Cloud" = false) :
    (strIncludes o.name "Score Object" = true →
      (processObject pb (s, ev) o).1.score = s.score + 1 ∧
      (processObject pb (s, ev) o).2.cues = ev.cues ++ [Cue.collect] ∧
      (processObject pb (s, ev) o).1.current.objects
        = s.current.objects.filter (fun x => x.oid ≠ o.oid)) ∧
    (strIncludes o.name "Score Object" = false →
     strIncludes o.name "Enemy" = true → s.score = 0 →
      (processObject pb (s, ev) o).1.score = 0 ∧
      (processObject pb (s, ev) o).2.cues = ev.cues ++ [Cue.impact] ∧
      (processObject pb (s, ev) o).1.current.objects
        = s.current.objects.filter (fun x => x.oid ≠ o.oid)) := by
  constructor
  · intro hsc
    simp [processObject, hinv, hover, hnc, collisionWith, hsc, setScore]
  · intro hsc hen h0
    simp [processObject, hinv, hover, hnc, collisionWith, hsc, hen, setScore, h0]

/-- Witness for C9: a concrete collectible and a concrete hazard collision
at score 0. -/
theorem claim9_witness :
    ((processObject playerHitBox (baseState, noEvents) collectObj).1.score
        = baseState.score + 1 ∧
      (processObject playerHitBox (baseState, noEvents) collectObj).2.cues
        = [Cue.collect]) ∧
    ((processObject playerHitBox (baseState, noEvents) enemyObjA).1.score = 0 ∧
      (processObject playerHitBox (baseState, noEvents) enemyObjA).2.cues
        = [Cue.impact]) := by
  have hc := claim9_collectible_hazard baseState noEvents playerHitBox collectObj
    rfl (by decide) (by decide)
  have he := claim9_collectible_hazard baseState noEvents playerHitBox enemyObjA
    rfl (by decide) (by decide)
  refine ⟨⟨(hc.1 (by decide)).1, ?_⟩, ⟨(he.2 (by decide) (by decide) rfl).1, ?_⟩⟩
  · have := (hc.1 (by decide)).2.1
    simpa [noEvents] using this
  · have := (he.2 (by decide) (by decide) rfl).2.1
    simpa [noEvents] using this

/-- The collision loop never generates or disposes islands: one loop step
only touches the score/effect state and the cue list. -/
theorem processObject_streaming_events (pb : Box3) (acc : GMState × GMEvents)
    (o : Obj) :
    (processObject pb acc o).2.generated = acc.2.generated ∧
    (processObject pb acc o).2.disposedIslands = acc.2.disposedIslands := by
  obtain ⟨s, ev⟩ := acc
  by_cases h1 : (s.invisible && strIncludes o.name "Enemy") = true
  · simp [processObject, h1]
  · by_cases h2 : intersectsBox o.box pb = true
    · simp [processObject, h1, h2]
    · simp [processObject, h1, h2]

/-- Folding the collision loop over any object list preserves the
generated/disposed island events. -/
theorem foldl_streaming_events (pb : Box3) (l : List Obj)
    (acc : GMState × GMEvents) :
    (l.foldl (processObject pb) acc).2.generated = acc.2.generated ∧
    (l.foldl (processObject pb) acc).2.disposedIslands
      = acc.2.disposedIslands := by
  induction l generalizing acc with
  | nil => simp
  | cons o rest ih =>
    simp only [List.foldl_cons]
    have h := processObject_streaming_events pb acc o
    have h2 := ih (processObject pb acc o)
    exact ⟨h2.1.trans h.1, h2.2.trans h.2⟩

/-- Claim C1 (amended): when the player's z has passed the current island's
end by more than the 400-unit margin, the manager promotes next to current
(populating it), generates exactly one new next island whose number is one
above the promoted island's number saturating at 9 (the generator clamps
island numbers to [0,9]), positions it after the promoted island, and
disposes the old current island; while the player's z lies strictly between
current.end and current.start, no island is generated or disposed; and a
full manager tick produces exactly the streaming events of
`#updatePlayerIsland`. -/
theorem claim1_streaming_window (s : GMState) (t : GMTick) :
    (s.playerZ + 400 < s.current.endZ →
      (updatePlayerIsland s t).1.current
        = { s.next with objects := s.next.objects ++ t.popObjects } ∧
      (updatePlayerIsland s t).1.next.num = min (s.next.num + 1) 9 ∧
      (updatePlayerIsland s t).2.generated = [min (s.next.num + 1) 9] ∧
      (updatePlayerIsland s t).2.disposedIslands = [s.current.num] ∧
      (updatePlayerIsland s t).1.next.start = s.next.endZ - 3000 ∧
      (updatePlayerIsland s t).1.next.endZ
        = (s.next.endZ - 3000) - (t.genLength + 1000) ∧
      (updatePlayerIsland s t).1.playerIsland = s.next.num) ∧
    (s.current.endZ < s.playerZ → s.playerZ < s.current.start →
      updatePlayerIsland s t
        = ({ s with playerIsland := s.current.num }, noEvents)) ∧
    (s.gameOver = false → ¬ s.playerY < -800 →
      (update s t).2.generated = (updatePlayerIsland s t).2.generated ∧
      (update s t).2.disposedIslands
        = (updatePlayerIsland s t).2.disposedIslands) := by
  refine ⟨fun h => ?_, fun h1 h2 => ?_, fun hgo hy => ?_⟩
  · have hni : ¬ (s.current.endZ < s.playerZ ∧ s.playerZ < s.current.start) := by
      rintro ⟨ha, -⟩
      linarith
    simp [updatePlayerIsland, if_neg hni, h, generateNewIsland]
  · simp [updatePlayerIsland, h1, h2]
  · simp only [update, hgo, Bool.false_eq_true, if_false, if_neg hy]
    exact foldl_streaming_events _ _ _

/-- Counterexample for C1: the promotion tick fires, but the new next
island's number equals the promoted island's number (9), not one above it. -/
theorem claim1_counterexample :
    c1SatState.playerZ + 400 < c1SatState.current.endZ ∧
    (updatePlayerIsland c1SatState baseTick).1.current.num = 9 ∧
    (updatePlayerIsland c1SatState baseTick).1.next.num = 9 ∧
    (updatePlayerIsland c1SatState baseTick).1.next.num
      ≠ (updatePlayerIsland c1SatState baseTick).1.current.num + 1 := by
  norm_num [c1SatState, c1Current9, c1Next9, baseState, updatePlayerIsland,
    generateNewIsland, gmClamp, baseTick]

/-- Witness for the amended C1: a trigger tick from island 1 produces next
island number 2, and an in-interval tick streams nothing. -/
theorem claim1_witness :
    (updatePlayerIsland { baseState with playerZ := -5500 } baseTick).1.next.num
      = 2 ∧
    updatePlayerIsland baseState baseTick
      = ({ baseState with playerIsland := 0 }, noEvents) := by
  constructor
  · have h := (claim1_streaming_window { baseState with playerZ := -5500 }
      baseTick).1 (by norm_num [baseState, island0])
    rw [h.2.1]
    norm_num [baseState, island1]
  · have h := (claim1_streaming_window baseState baseTick).2.1
      (by norm_num [baseState, island0]) (by norm_num [baseState, island0])
    simpa [baseState, island0] using h

/-- `clearTimeout` only filters the pending timer list. -/
theorem clearTimeoutRef_fields (s : GMState) (ref : TimeoutRef) :
    (clearTimeoutRef s ref).now = s.now ∧
    (clearTimeoutRef s ref).current = s.current ∧
    (clearTimeoutRef s ref).nextTimerId = s.nextTimerId ∧
    (clearTimeoutRef s ref).invisible = s.invisible ∧
    (clearTimeoutRef s ref).invisibleTimeoutId = s.invisibleTimeoutId := by
  cases ref <;> simp [clearTimeoutRef]

/-- Clearing a batch of timeout references only filters the pending list. -/
theorem clearAllRefs_fields (refs : List TimeoutRef) (s : GMState) :
    (clearAllRefs s refs).now = s.now ∧
    (clearAllRefs s refs).current = s.current ∧
    (clearAllRefs s refs).nextTimerId = s.nextTimerId := by
  induction refs generalizing s with
  | nil => simp [clearAllRefs]
  | cons r rest ih =>
    have h1 := clearTimeoutRef_fields s r
    have h2 := ih (clearTimeoutRef s r)
    simp only [clearAllRefs, List.foldl_cons] at h2 ⊢
    exact ⟨h2.1.trans h1.1, h2.2.1.trans h1.2.1, h2.2.2.trans h1.2.2.1⟩

/-- A timer surviving `clearTimeout(ref)` was pending before and does not
carry the cleared id. -/
theorem mem_clearTimeoutRef (s : GMState) (ref : TimeoutRef) (tm : Timer)
    (h : tm ∈ (clearTimeoutRef s ref).pending) :
    tm ∈ s.pending ∧ ∀ n, ref = TimeoutRef.tid n → tm.id ≠ n := by
  cases ref with
  | tid n =>
    rw [clearTimeoutRef] at h
    simp only [List.mem_filter, decide_not] at h
    refine ⟨h.1, fun m hm => ?_⟩
    cases hm
    simpa using h.2
  | fnRef => exact ⟨by simpa [clearTimeoutRef] using h, by simp⟩
  | numRef k => exact ⟨by simpa [clearTimeoutRef] using h, by simp⟩

/-- A timer surviving `ids.forEach(clearTimeout)` was pending before and
carries none of the cleared ids. -/
theorem mem_clearAllRefs (refs : List TimeoutRef) (s : GMState) (tm : Timer)
    (h : tm ∈ (clearAllRefs s refs).pending) :
    tm ∈ s.pending ∧ ∀ n, TimeoutRef.tid n ∈ refs → tm.id ≠ n := by
  induction refs generalizing s with
  | nil => exact ⟨by simpa [clearAllRefs] using h, by simp⟩
  | cons r rest ih =>
    have h0 : tm ∈ (clearAllRefs (clearTimeoutRef s r) rest).pending := by
      simpa [clearAllRefs] using h
    have h1 := ih (clearTimeoutRef s r) h0
    have h2 := mem_clearTimeoutRef s r tm h1.1
    refine ⟨h2.1, fun n hn => ?_⟩
    rcases List.mem_cons.mp hn with h3 | h3
    · exact h2.2 n h3.symm
    · exact h1.2 n h3

/-- Scheduling a batch of restore timeouts leaves the clock and the island
state untouched. -/
theorem scheduleMany_frame (mk : ℕ → TimerAction) (delay : ℕ)
    (objs : List Obj) (s : GMState) :
    (scheduleMany mk delay s objs).now = s.now ∧
    (scheduleMany mk delay s objs).current = s.current := by
  induction objs generalizing s with
  | nil => simp [scheduleMany]
  | cons o rest ih =>
    simpa only [scheduleMany] using ih _

/-- Each scheduled restore timeout adds exactly one matching pending timer. -/
theorem scheduleMany_filter_length (mk : ℕ → TimerAction) (delay : ℕ)
    (p : Timer → Bool) (hp : ∀ i oid f, p ⟨i, mk oid, f⟩ = true)
    (objs : List Obj) (s : GMState) :
    ((scheduleMany mk delay s objs).pending.filter p).length
      = (s.pending.filter p).length + objs.length := by
  induction objs generalizing s with
  | nil => simp [scheduleMany]
  | cons o rest ih =>
    simp only [scheduleMany]
    rw [ih]
    simp only [List.filter_append, List.length_append, List.length_cons]
    rw [List.filter_cons]
    simp [hp]
    omega

/-- Every timer pending after a scheduling batch either was pending before
or is one of the batch, firing a full window after the trigger. -/
theorem scheduleMany_fire (mk : ℕ → TimerAction) (delay : ℕ)
    (objs : List Obj) (s : GMState) (tm : Timer)
    (h : tm ∈ (scheduleMany mk delay s objs).pending) :
    tm ∈ s.pending ∨ ((∃ oid, tm.action = mk oid) ∧ tm.fire = s.now + delay) := by
  induction objs generalizing s with
  | nil => exact Or.inl (by simpa [scheduleMany] using h)
  | cons o rest ih =>
    rcases ih _ (by simpa only [scheduleMany] using h) with h1 | h1
    · rcases List.mem_append.mp h1 with h2 | h2
      · exact Or.inl h2
      · simp only [List.mem_singleton] at h2
        subst h2
        exact Or.inr ⟨⟨o.oid, rfl⟩, rfl⟩
    · exact Or.inr h1

/-- Claim C8 (amended): re-triggering an active timed effect always cancels
the previously scheduled expiries before scheduling fresh full-length ones,
so the effect never reverts before the latest trigger's window; the
invulnerability effect keeps exactly one pending expiry timer, while the
shrink effect keeps one restore timer per affected enemy and cloud (all
sharing the latest trigger's expiry time), so several shrink timers are
pending concurrently. -/
theorem claim8_timed_effects (s s2 : GMState)
    (hWF : ∀ tm ∈ s.pending, isInvisTimer tm = true →
      s.invisible = true ∧ s.invisibleTimeoutId = some tm.id)
    (hWF2 : ∀ tm ∈ s2.pending, isShrinkTimer tm = true →
      TimeoutRef.tid tm.id ∈ s2.smallerEnemiesTimeoutIds ∧
      s2.smallerEnemies = true) :
    (((blueBranch s).1.pending.filter isInvisTimer).length = 1 ∧
      (∀ tm ∈ (blueBranch s).1.pending, isInvisTimer tm = true →
        tm.fire = s.now + 10000 ∧
        (blueBranch s).1.invisibleTimeoutId = some tm.id)) ∧
    ((((greenBranch s2).1.pending.filter isShrinkTimer).length
        = (s2.current.objects.filter
            (fun o => strIncludes o.name "Enemy")).length
          + s2.current.clouds.length) ∧
      (∀ tm ∈ (greenBranch s2).1.pending, isShrinkTimer tm = true →
        tm.fire = s2.now + 6000)) := by
  constructor
  · -- Blue branch
    set s1 := if s.invisible && s.invisibleTimeoutId.isSome then
        clearTimeoutRef s (.tid (s.invisibleTimeoutId.getD 0))
      else s with hs1
    have hclean : ∀ tm ∈ s1.pending, isInvisTimer tm = true → False := by
      intro tm hmem hinv
      by_cases hc : (s.invisible && s.invisibleTimeoutId.isSome) = true
      · rw [hs1, if_pos hc] at hmem
        have h2 := mem_clearTimeoutRef s _ tm hmem
        have h3 := (hWF tm h2.1 hinv).2
        have h4 := h2.2 (s.invisibleTimeoutId.getD 0) rfl
        rw [h3] at h4
        simp at h4
      · rw [hs1, if_neg hc] at hmem
        have h3 := hWF tm hmem hinv
        rw [h3.1, h3.2] at hc
        simp at hc
    have hfields : s1.now = s.now ∧ s1.nextTimerId = s.nextTimerId := by
      by_cases hc : (s.invisible && s.invisibleTimeoutId.isSome) = true
      · rw [hs1, if_pos hc]
        exact ⟨(clearTimeoutRef_fields s _).1, (clearTimeoutRef_fields s _).2.2.1⟩
      · rw [hs1, if_neg hc]
        exact ⟨rfl, rfl⟩
    have hpend : (blueBranch s).1.pending
        = s1.pending ++ [⟨s1.nextTimerId, .invisibleOff, s1.now + 10000⟩] := rfl
    have hid : (blueBranch s).1.invisibleTimeoutId = some s1.nextTimerId := rfl
    have hnil : s1.pending.filter isInvisTimer = [] := by
      rw [List.filter_eq_nil_iff]
      intro tm hmem hinv
      exact hclean tm hmem hinv
    constructor
    · rw [hpend, List.filter_append, hnil]
      simp [isInvisTimer]
    · intro tm hmem hinv
      rw [hpend] at hmem
      rcases List.mem_append.mp hmem with h2 | h2
      · exact absurd hinv (by intro hx; exact hclean tm h2 hx)
      · simp only [List.mem_singleton] at h2
        subst h2
        exact ⟨by simp [hfields.1], by rw [hid]⟩
  · -- Green branch
    set enemies := s2.current.objects.filter
      (fun o => strIncludes o.name "Enemy") with hene
    set clouds := s2.current.clouds with hcl
    set s3 := if s2.smallerEnemies && !s2.smallerEnemiesTimeoutIds.isEmpty then
        clearAllRefs s2 s2.smallerEnemiesTimeoutIds
      else s2 with hs3
    have hclean : s3.pending.filter isShrinkTimer = [] := by
      rw [List.filter_eq_nil_iff]
      intro tm hmem hshr
      by_cases hc : (s2.smallerEnemies && !s2.smallerEnemiesTimeoutIds.isEmpty)
          = true
      · rw [hs3, if_pos hc] at hmem
        have h2 := mem_clearAllRefs _ s2 tm hmem
        have h3 := hWF2 tm h2.1 hshr
        exact h2.2 tm.id h3.1 rfl
      · rw [hs3, if_neg hc] at hmem
        have h3 := hWF2 tm hmem hshr
        rcases h3 with ⟨hmem2, hflag⟩
        rw [hflag] at hc
        have : ¬ s2.smallerEnemiesTimeoutIds.isEmpty = true := by
          intro hx
          rw [List.isEmpty_iff] at hx
          rw [hx] at hmem2
          simp at hmem2
        simp [this] at hc
    have hfr : s3.now = s2.now ∧ s3.current = s2.current := by
      by_cases hc : (s2.smallerEnemies && !s2.smallerEnemiesTimeoutIds.isEmpty)
          = true
      · rw [hs3, if_pos hc]
        exact ⟨(clearAllRefs_fields _ s2).1, (clearAllRefs_fields _ s2).2.1⟩
      · rw [hs3, if_neg hc]
        exact ⟨rfl, rfl⟩
    -- the state fed to the first scheduling batch
    set s4 : GMState := { s3 with
      smallerEnemies := true,
      current := { s3.current with
        objects := s3.current.objects.map
          (fun o : Obj => if strIncludes o.name "Enemy"
            then { o with scale := 3/100 } else o) } } with hs4
    set s5 := scheduleMany TimerAction.enemyRestore 6000 s4 enemies with hs5
    set s6 : GMState := { s5 with
      current := { s5.current with
        clouds := s5.current.clouds.map
          (fun o : Obj => { o with scale := 9/100 }) } } with hs6
    set s7 := scheduleMany TimerAction.cloudRestore 6000 s6 clouds with hs7
    have hgreen : (greenBranch s2).1.pending = s7.pending := rfl
    constructor
    · rw [hgreen, hs7, scheduleMany_filter_length _ _ _
        (fun i oid f => rfl) clouds s6]
      have h5 : (s6.pending.filter isShrinkTimer).length
          = (s4.pending.filter isShrinkTimer).length + enemies.length := by
        have := scheduleMany_filter_length TimerAction.enemyRestore 6000
          isShrinkTimer (fun i oid f => rfl) enemies s4
        simpa [hs6, ← hs5] using this
      rw [h5]
      have h4 : s4.pending = s3.pending := rfl
      rw [h4, hclean]
      simp
    · intro tm hmem hshr
      rw [hgreen] at hmem
      rcases scheduleMany_fire _ _ _ _ _ hmem with h1 | h1
      · -- pending of s6 = pending of s5
        have h1' : tm ∈ s5.pending := by simpa [hs6] using h1
        rcases scheduleMany_fire _ _ _ _ _ h1' with h2 | h2
        · have h2' : tm ∈ s3.pending := by simpa [hs4] using h2
          have : isShrinkTimer tm = false := by
            have := hclean
            rw [List.filter_eq_nil_iff] at this
            have hx := this tm h2'
            simpa using hx
          rw [this] at hshr
          cases hshr
        · rw [h2.2]
          have : s4.now = s2.now := by rw [hs4]; exact hfr.1
          rw [this]
      · rw [h1.2]
        have h6 : s6.now = s2.now := by
          have h5n : s5.now = s4.now := (scheduleMany_frame _ _ _ _).1
          have h4n : s4.now = s3.now := rfl
          simp [hs6, h5n, h4n, hfr.1]
        rw [h6]

/-- Counterexample refuting C8 as stated: a single shrink power-up trigger
from a clean state leaves three pending expiry timers for the shrink effect
(one per enemy and per cloud), not at most one. -/
theorem claim8_counterexample :
    1 < ((greenBranch c8State).1.pending.filter isShrinkTimer).length := by
  decide

/-- Witness for the amended C8: re-triggering the active invisibility
effect leaves exactly one pending expiry timer, and one shrink trigger over
two enemies and a cloud leaves exactly three pending restore timers. -/
theorem claim8_witness :
    ((blueBranch blueFixState).1.pending.filter isInvisTimer).length = 1 ∧
    ((greenBranch c8State).1.pending.filter isShrinkTimer).length = 3 := by
  have h := claim8_timed_effects blueFixState c8State (by decide) (by decide)
  refine ⟨h.1.1, ?_⟩
  rw [h.2.1]
  decide

end GM

namespace TG

/-- Claim C7: for every consecutive key-point pair, the cosine-interpolated
curve samples hit `point0.y` exactly at the interval's start (`j = 0`) and
`point1.y` exactly at its end (`j = horizontalSegments`), with the curve
midline equal to the mean of the two heights and the amplitude equal to half
their difference (the sample at the half-way index of an even subdivision
lies exactly on the midline), so the interpolation is exactly periodic
across each control-point interval. -/
theorem claim7_cosine_endpoints (p0y p1y p0z p1z : ℝ) (n : ℕ) (hn : 1 ≤ n) :
    sampleY p0y p1y n 0 = p0y ∧
    sampleY p0y p1y n n = p1y ∧
    sampleZR p0z p1z n 0 = p0z ∧
    sampleZR p0z p1z n n = p1z ∧
    yMid p0y p1y = (p0y + p1y) / 2 ∧
    amplitude p0y p1y = (p0y - p1y) / 2 ∧
    (∀ m, n = 2 * m → sampleY p0y p1y n m = yMid p0y p1y) := by
  have hn0 : (n : ℝ) ≠ 0 := Nat.cast_ne_zero.mpr (by omega)
  refine ⟨?_, ?_, ?_, ?_, rfl, rfl, ?_⟩
  · simp only [sampleY, yMid, amplitude, Nat.cast_zero, zero_mul,
      Real.cos_zero, mul_one]
    ring
  · have hpi : (n : ℝ) * (Real.pi / n) = Real.pi := by field_simp
    simp only [sampleY, yMid, amplitude, hpi, Real.cos_pi, mul_neg_one]
    ring
  · simp [sampleZR]
  · have hz : (n : ℝ) * ((p1z - p0z) / n) = p1z - p0z := by field_simp
    simp only [sampleZR, hz]
    ring
  · intro m hm
    subst hm
    have hm0 : (m : ℝ) ≠ 0 := by
      have : 1 ≤ m := by omega
      exact Nat.cast_ne_zero.mpr (by omega)
    have hhalf : (m : ℝ) * (Real.pi / (((2 * m : ℕ) : ℝ))) = Real.pi / 2 := by
      push_cast
      field_simp
      ring
    simp only [sampleY, hhalf, Real.cos_pi_div_two, mul_zero, add_zero]

/-- Witness for C7 at the concrete pair (0,3)–(4,7) with two subdivisions. -/
theorem claim7_witness :
    sampleY 3 7 2 0 = 3 ∧ sampleY 3 7 2 2 = 7 ∧
    sampleZR 0 4 2 0 = 0 ∧ sampleZR 0 4 2 2 = 4 ∧
    sampleY 3 7 2 1 = yMid 3 7 := by
  have h := claim7_cosine_endpoints 3 7 0 4 2 (by norm_num)
  exact ⟨h.1, h.2.1, h.2.2.1, h.2.2.2.1, h.2.2.2.2.2.2 1 rfl⟩

end TG

namespace PC

/-- The minimum-speed clamp does not touch the player radius. -/
theorem minSpeedPhase_radius (s : PCState) :
    (minSpeedPhase s).playerRadius = s.playerRadius := by
  unfold minSpeedPhase
  split <;> rfl

/-- The descend-gravity step does not touch the player radius. -/
theorem applyGravity_radius (s : PCState) (dt : ℝ) :
    (applyGravity s dt).playerRadius = s.playerRadius := by
  unfold applyGravity
  split <;> rfl

/-- The sidestep does not touch the player radius. -/
theorem movePlayerHorizontally_radius (s : PCState) (k : Keys) (dt : ℝ) :
    (movePlayerHorizontally s k dt).playerRadius = s.playerRadius := by
  unfold movePlayerHorizontally
  split <;> first | rfl | (split <;> rfl)

/-- The grounded test only reads the ray results and the player radius. -/
theorem groundedCheck_congr (s s' : PCState) (r : Rays)
    (h : s.playerRadius = s'.playerRadius) :
    groundedCheck s r = groundedCheck s' r := by
  unfold groundedCheck
  cases minIntersect (boundedHits r) with
  | none => rfl
  | some hd => rw [h]

/-- The grounded-rotation step does not change the grounded flag or the
player radius. -/
theorem rotatePlayerOnGround_frame (s : PCState) (r : Rays) :
    (rotatePlayerOnGround s r).isGrounded = s.isGrounded ∧
    (rotatePlayerOnGround s r).playerRadius = s.playerRadius ∧
    (rotatePlayerOnGround s r).pos = s.pos := by
  unfold rotatePlayerOnGround
  cases minIntersect (allHits r) <;> exact ⟨rfl, rfl, rfl⟩

/-- The ground clamp does not change the grounded flag or the player radius. -/
theorem clampPlayerToGround_frame (s : PCState) (r : Rays) :
    (clampPlayerToGround s r).isGrounded = s.isGrounded ∧
    (clampPlayerToGround s r).playerRadius = s.playerRadius := by
  unfold clampPlayerToGround
  cases minIntersect (boundedHits r)
  · exact ⟨rfl, rfl⟩
  · constructor <;> (dsimp only; split <;> rfl)

/-- The airborne rotation does not change the grounded flag or the player
radius. -/
theorem rotatePlayerOnAir_frame (s : PCState) :
    (rotatePlayerOnAir s).isGrounded = s.isGrounded ∧
    (rotatePlayerOnAir s).playerRadius = s.playerRadius ∧
    (rotatePlayerOnAir s).pos = s.pos := ⟨rfl, rfl, rfl⟩

/-- The pre-raycast phases do not touch the player radius. -/
theorem prePhases_radius (s : PCState) (k : Keys) (dt : ℝ) :
    (prePhases s k dt).playerRadius = s.playerRadius := by
  unfold prePhases
  have h3 : (applyGlobalGravity (minSpeedPhase (movePhase s dt)) dt).playerRadius
      = s.playerRadius := by
    show (minSpeedPhase (movePhase s dt)).playerRadius = s.playerRadius
    rw [minSpeedPhase_radius]
    rfl
  have h4 : (if k.space then
      applyGravity (applyGlobalGravity (minSpeedPhase (movePhase s dt)) dt) dt
      else applyGlobalGravity (minSpeedPhase (movePhase s dt)) dt).playerRadius
      = s.playerRadius := by
    split
    · rw [applyGravity_radius]
      exact h3
    · exact h3
  dsimp only
  split
  · rw [movePlayerHorizontally_radius]
    exact h4
  · exact h4

/-- After the tick body, the grounded flag is exactly the grounded test of
the incoming ray results, and the player radius is unchanged. -/
theorem tickBody_isGrounded (s : PCState) (k : Keys) (r : Rays) (dt : ℝ) :
    (tickBody s k r dt).isGrounded = groundedCheck s r ∧
    (tickBody s k r dt).playerRadius = s.playerRadius := by
  unfold tickBody
  set sm := prePhases s k dt with hsm
  have hrad : sm.playerRadius = s.playerRadius := prePhases_radius s k dt
  have hgc : groundedCheck sm r = groundedCheck s r :=
    groundedCheck_congr sm s r hrad
  dsimp only
  by_cases hg : groundedCheck sm r = true
  · rw [if_pos hg]
    constructor
    · rw [(clampPlayerToGround_frame _ r).1, (rotatePlayerOnGround_frame _ r).1]
      show groundedCheck sm r = groundedCheck s r
      exact hgc
    · rw [(clampPlayerToGround_frame _ r).2, (rotatePlayerOnGround_frame _ r).2.1]
      exact hrad
  · rw [if_neg hg]
    constructor
    · rw [(rotatePlayerOnAir_frame _).1]
      show groundedCheck sm r = groundedCheck s r
      exact hgc
    · rw [(rotatePlayerOnAir_frame _).2.1]
      exact hrad

/-- The up-ray teleport does not change the grounded flag. -/
theorem upTeleport_frame (s : PCState) (r : Rays) :
    (upTeleport s r).isGrounded = s.isGrounded ∧
    (upTeleport s r).playerRadius = s.playerRadius := by
  unfold upTeleport
  cases r.up <;> exact ⟨rfl, rfl⟩

/-- A minimal element returned by the stable minimum scan is a member of
the list and bounds every element's distance. -/
theorem minIntersect_spec (l : List Hit) (h : Hit)
    (hh : minIntersect l = some h) :
    h ∈ l ∧ ∀ g ∈ l, h.distance ≤ g.distance := by
  induction l generalizing h with
  | nil => simp [minIntersect] at hh
  | cons a t ih =>
    rw [minIntersect] at hh
    cases hmt : minIntersect t with
    | none =>
      rw [hmt] at hh
      have hh' : some a = some h := hh
      cases hh'
      have ht : ∀ g ∈ t, False := by
        intro g hg
        cases t with
        | nil => simp at hg
        | cons b u =>
          rw [minIntersect] at hmt
          cases hmu : minIntersect u with
          | none =>
            rw [hmu] at hmt
            exact Option.noConfusion hmt
          | some m =>
            rw [hmu] at hmt
            have : (if m.distance < b.distance then some m else some b)
                = (none : Option Hit) := hmt
            by_cases hc : m.distance < b.distance
            · rw [if_pos hc] at this
              exact Option.noConfusion this
            · rw [if_neg hc] at this
              exact Option.noConfusion this
      refine ⟨List.mem_cons_self _ _, fun g hg => ?_⟩
      rcases List.mem_cons.mp hg with hga | hgt
      · subst hga
        exact le_refl _
      · exact absurd hgt (by intro hx; exact ht g hx)
    | some m =>
      rw [hmt] at hh
      have hh' : (if m.distance < a.distance then some m else some a)
          = some h := hh
      have hspec := ih m hmt
      by_cases hlt : m.distance < a.distance
      · rw [if_pos hlt] at hh'
        cases hh'
        refine ⟨List.mem_cons_of_mem a hspec.1, fun g hg => ?_⟩
        rcases List.mem_cons.mp hg with hga | hgt
        · subst hga
          exact le_of_lt hlt
        · exact hspec.2 g hgt
      · rw [if_neg hlt] at hh'
        cases hh'
        refine ⟨List.mem_cons_self _ _, fun g hg => ?_⟩
        rcases List.mem_cons.mp hg with hga | hgt
        · subst hga
          exact le_refl _
        · exact le_trans (le_of_not_lt hlt) (hspec.2 g hgt)

/-- The stable minimum scan of a nonempty list returns a hit. -/
theorem minIntersect_isSome (l : List Hit) (hne : l ≠ []) :
    ∃ h, minIntersect l = some h := by
  cases l with
  | nil => exact absurd rfl hne
  | cons a t =>
    rw [minIntersect]
    cases minIntersect t with
    | none => exact ⟨a, rfl⟩
    | some m =>
      by_cases hc : m.distance < a.distance
      · exact ⟨m, by simp [hc]⟩
      · exact ⟨a, by simp [hc]⟩

/-- The grounded test is true exactly when some bounded-ray hit of minimal
distance lies within `playerRadius + 1`. -/
theorem groundedCheck_true_iff (s : PCState) (r : Rays) :
    groundedCheck s r = true ↔
      ∃ hh ∈ boundedHits r, hh.distance ≤ s.playerRadius + 1 ∧
        ∀ other ∈ boundedHits r, hh.distance ≤ other.distance := by
  unfold groundedCheck
  cases hmt : minIntersect (boundedHits r) with
  | none =>
    simp only [Bool.false_eq_true, false_iff]
    rintro ⟨hh, hmem, -, -⟩
    have hne : boundedHits r ≠ [] := by
      intro hx
      rw [hx] at hmem
      simp at hmem
    obtain ⟨m, hm⟩ := minIntersect_isSome _ hne
    rw [hmt] at hm
    cases hm
  | some m =>
    have hspec := minIntersect_spec _ m hmt
    constructor
    · intro hle
      refine ⟨m, hspec.1, ?_, hspec.2⟩
      by_cases hc : m.distance ≤ 1 + s.playerRadius
      · linarith
      · simp [hc] at hle
    · rintro ⟨hh, hmem, hbound, -⟩
      have : m.distance ≤ 1 + s.playerRadius := by
        have := hspec.2 hh hmem
        linarith
      simp [this]

/-- After any started tick, the grounded flag is exactly the grounded test
of the tick's ray results (it does not depend on the previous flag). -/
theorem update_isGrounded (s : PCState) (k : Keys) (r : Rays) (dt : ℝ)
    (hstart : s.startGame = true) :
    (update s k r dt).isGrounded = groundedCheck s r := by
  unfold update
  set s0 := if k.enter then { s with startGame := true } else s with hs0
  have hrad : s0.playerRadius = s.playerRadius := by
    rw [hs0]
    split <;> rfl
  have hst : s0.startGame = true := by
    rw [hs0]
    split
    · rfl
    · exact hstart
  rw [if_neg (by rw [hst]; simp)]
  rw [(upTeleport_frame _ r).1, (tickBody_isGrounded s0 k r dt).1]
  exact groundedCheck_congr s0 s r hrad

/-- Claim C5: on every started controller tick, the player is classified
grounded iff among the three bounded rays at least one reports a hit whose
minimal distance is within `playerRadius + 1`; the unbounded up ray never
contributes to the test, and the classification is recomputed fresh each
tick, independent of the previous grounded flag. -/
theorem claim5_grounded_classification (s : PCState) (k : Keys) (r : Rays)
    (dt : ℝ) (hstart : s.startGame = true) :
    ((update s k r dt).isGrounded = true ↔
      ∃ hh ∈ boundedHits r, hh.distance ≤ s.playerRadius + 1 ∧
        ∀ other ∈ boundedHits r, hh.distance ≤ other.distance) ∧
    (∀ u1 u2, (update s k { r with up := u1 } dt).isGrounded
        = (update s k { r with up := u2 } dt).isGrounded) ∧
    (∀ b, (update { s with isGrounded := b } k r dt).isGrounded
        = (update s k r dt).isGrounded) := by
  refine ⟨?_, fun u1 u2 => ?_, fun b => ?_⟩
  · rw [update_isGrounded s k r dt hstart]
    exact groundedCheck_true_iff s r
  · rw [update_isGrounded s k _ dt hstart, update_isGrounded s k _ dt hstart]
    rfl
  · rw [update_isGrounded { s with isGrounded := b } k r dt hstart,
      update_isGrounded s k r dt hstart]
    exact groundedCheck_congr _ s r rfl

/-- Claim C6: on every started controller tick, an up-ray hit teleports the
player's y to the hit point's y plus the player radius, and when the up ray
reports no hit the teleport fallback never fires — the tick result is
exactly the tick body's result. -/
theorem claim6_up_ray_fallback (s : PCState) (k : Keys) (r : Rays) (dt : ℝ)
    (hstart : s.startGame = true) :
    (∀ hh, r.up = some hh →
      (update s k r dt).pos.y = hh.pointY + s.playerRadius) ∧
    (r.up = none →
      update s k r dt
        = tickBody (if k.enter then { s with startGame := true } else s) k r
            dt) := by
  unfold update
  set s0 := if k.enter then { s with startGame := true } else s with hs0
  have hst : s0.startGame = true := by
    rw [hs0]
    split
    · rfl
    · exact hstart
  rw [if_neg (by rw [hst]; simp)]
  constructor
  · intro hh hup
    unfold upTeleport
    rw [hup]
    show hh.pointY + (tickBody s0 k r dt).playerRadius = hh.pointY + s.playerRadius
    rw [(tickBody_isGrounded s0 k r dt).2]
    have : s0.playerRadius = s.playerRadius := by
      rw [hs0]
      split <;> rfl
    rw [this]
  · intro hup
    unfold upTeleport
    rw [hup]

/-- Claim C4 (amended): the constant gravity step changes vertical velocity
on every tick, grounded or not (the grounded guard is absent from
`#applyGlobalGravity`); only the steeper descend gravity (four times the
player weight) is gated, applying exactly when the player was airborne on
the previous tick's classification. -/
theorem claim4_gravity_gating (s : PCState) (dt : ℝ) :
    (applyGlobalGravity s dt).vel.y = s.vel.y + s.playerMass * s.gravity * dt ∧
    (s.isGrounded = true → applyGravity s dt = s) ∧
    (s.isGrounded = false →
      (applyGravity s dt).vel.y
        = s.vel.y + s.playerMass * s.gravity * 4 * dt) := by
  refine ⟨rfl, fun h => ?_, fun h => ?_⟩
  · unfold applyGravity
    rw [if_pos h]
  · unfold applyGravity
    rw [if_neg (by simp [h])]
    rfl

/-- Counterexample refuting C4 as stated: on a grounded tick the constant
gravity step still changes the vertical velocity. -/
theorem claim4_counterexample :
    pcGrounded.isGrounded = true ∧
    (applyGlobalGravity pcGrounded (1/100)).vel.y ≠ pcGrounded.vel.y := by
  refine ⟨rfl, ?_⟩
  show pcGrounded.vel.y + playerWeight pcGrounded * (1/100) ≠ pcGrounded.vel.y
  norm_num [pcGrounded, pcBase, playerWeight]

/-- Witness for the amended C4: the descend gravity is inert on a grounded
tick and integrates four gravities on an airborne one. -/
theorem claim4_witness :
    applyGravity pcGrounded (1/100) = pcGrounded ∧
    (applyGravity pcBase (1/100)).vel.y
      = pcBase.vel.y + pcBase.playerMass * pcBase.gravity * 4 * (1/100) := by
  exact ⟨(claim4_gravity_gating pcGrounded (1/100)).2.1 rfl,
    (claim4_gravity_gating pcBase (1/100)).2.2 rfl⟩

/-- Witness for C5: with only the down ray hitting at distance 4 and radius
4, the tick classifies the player grounded; with all rays missing it does
not. -/
theorem claim5_witness :
    (update pcBase keysNone raysDown (1/100)).isGrounded = true ∧
    (update pcBase keysNone raysNone (1/100)).isGrounded = false := by
  constructor
  · rw [(claim5_grounded_classification pcBase keysNone raysDown (1/100)
      rfl).1]
    have hb : boundedHits raysDown = [hitDown] := rfl
    rw [hb]
    refine ⟨hitDown, List.mem_singleton.mpr rfl, ?_, ?_⟩
    · show (4 : ℝ) ≤ 4 + 1
      norm_num
    · intro other hother
      rw [List.mem_singleton.mp hother]
  · have h := (claim5_grounded_classification pcBase keysNone raysNone (1/100)
      rfl).1
    cases hg : (update pcBase keysNone raysNone (1/100)).isGrounded
    · rfl
    · exfalso
      obtain ⟨hh, hmem, -, -⟩ := h.mp hg
      have : boundedHits raysNone = [] := rfl
      rw [this] at hmem
      simp at hmem

/-- Witness for C6: an up-ray hit at height 60 teleports the player to
y = 64; without an up-ray hit the tick equals the plain tick body. -/
theorem claim6_witness :
    (update pcBase keysNone
        { raysNone with up := some hitDown } (1/100)).pos.y
      = hitDown.pointY + pcBase.playerRadius ∧
    update pcBase keysNone raysNone (1/100)
      = tickBody pcBase keysNone raysNone (1/100) := by
  constructor
  · exact (claim6_up_ray_fallback pcBase keysNone
      { raysNone with up := some hitDown } (1/100) rfl).1 hitDown rfl
  · have h := (claim6_up_ray_fallback pcBase keysNone raysNone (1/100) rfl).2
      rfl
    simpa using h

/-- Claim C2 (amended): the minimum-forward-speed enforcement step of each
tick guarantees, immediately after it runs, that the magnitude of
`velocity.z` is at least the configured move speed and that its sign is
unchanged, whenever `velocity.z` is nonzero at that point (a zero forward
velocity is left at zero, since `Math.sign(0) = 0`); the orientation update
at the end of the tick then rebuilds the velocity from the player's facing
direction at unchanged magnitude, which can leave the magnitude of
`velocity.z` below the floor by the end of the tick. -/
theorem claim2_min_speed_clamp (s : PCState) (h0 : s.vel.z ≠ 0)
    (hms : 0 < s.moveSpeed) :
    s.moveSpeed ≤ |(minSpeedPhase s).vel.z| ∧
    Real.sign (minSpeedPhase s).vel.z = Real.sign s.vel.z := by
  unfold minSpeedPhase
  by_cases hc : |s.vel.z| < s.moveSpeed
  · rw [if_pos hc]
    show s.moveSpeed ≤ |Real.sign s.vel.z * s.moveSpeed| ∧
      Real.sign (Real.sign s.vel.z * s.moveSpeed) = Real.sign s.vel.z
    rcases lt_or_gt_of_ne h0 with hneg | hpos
    · rw [Real.sign_of_neg hneg]
      constructor
      · rw [abs_mul, abs_of_pos hms]
        norm_num
      · rw [Real.sign_of_neg (by nlinarith)]
    · rw [Real.sign_of_pos hpos]
      constructor
      · rw [abs_mul, abs_of_pos hms]
        norm_num
      · rw [Real.sign_of_pos (by nlinarith)]
  · rw [if_neg hc]
    exact ⟨le_of_not_lt hc, rfl⟩

/-- Witness for the amended C2: a forward velocity of −50 is clamped back
to magnitude 100 with its sign preserved. -/
theorem claim2_witness :
    pcSlow.moveSpeed ≤ |(minSpeedPhase pcSlow).vel.z| ∧
    Real.sign (minSpeedPhase pcSlow).vel.z = Real.sign pcSlow.vel.z := by
  exact claim2_min_speed_clamp pcSlow (by norm_num [pcSlow, pcBase])
    (by norm_num [pcSlow, pcBase])

/-- The ground clamp never touches the velocity. -/
theorem clampPlayerToGround_vel (s : PCState) (r : Rays) :
    (clampPlayerToGround s r).vel = s.vel := by
  unfold clampPlayerToGround
  cases minIntersect (boundedHits r)
  · rfl
  · dsimp only
    split <;> rfl

/-- `applyQuaternion` by a pure x-axis quaternion, in closed form. -/
theorem applyQuat_xquat (c sx : ℝ) (v : V3) :
    applyQuat v ⟨c, sx, 0, 0⟩
      = ⟨(c^2 + sx^2) * v.x,
         (c^2 - sx^2) * v.y - 2*c*sx * v.z,
         2*c*sx * v.y + (c^2 - sx^2) * v.z⟩ := by
  unfold applyQuat
  simp only [V3.mk.injEq]
  refine ⟨by ring, by ring, by ring⟩

/-- Multiplying a pure x-axis quaternion by the identity on the right. -/
theorem qMul_xquat_id (c sx : ℝ) :
    qMul ⟨c, sx, 0, 0⟩ ⟨1, 0, 0, 0⟩ = ⟨c, sx, 0, 0⟩ := by
  unfold qMul
  simp only [Quat.mk.injEq]
  refine ⟨by ring, by ring, by ring, by ring⟩

/-- `setFromAxisAngle` on the x axis, in closed form. -/
theorem qFromAxisAngle_x (θ : ℝ) :
    qFromAxisAngle ⟨1, 0, 0⟩ θ
      = ⟨Real.cos (θ/2), Real.sin (θ/2), 0, 0⟩ := by
  unfold qFromAxisAngle
  simp only [Quat.mk.injEq]
  norm_num

/-- `rotateTowards` arrives exactly at the target when the step covers the
whole angular distance (three.js slerp's `t === 1` shortcut). -/
theorem rotateTowards_reaches (qa qb : Quat) (step : ℝ)
    (hangle : qAngleTo qa qb ≠ 0) (hstep : 1 ≤ step / qAngleTo qa qb) :
    rotateTowards qa qb step = qb := by
  unfold rotateTowards
  rw [if_neg hangle, min_eq_left hstep]
  unfold slerp
  rw [if_neg one_ne_zero, if_pos rfl]

/-- The arccosine of √3/2 is π/6. -/
theorem arccos_sqrt3_half : Real.arccos (Real.sqrt 3 / 2) = Real.pi / 6 := by
  rw [← Real.cos_pi_div_six]
  exact Real.arccos_cos (by positivity) (by linarith [Real.pi_pos])

/-- The angular distance between the identity and a pure x-rotation by a
small positive angle. -/
theorem qAngleTo_id_xquat (θ : ℝ) (h0 : 0 ≤ θ) (hpi : θ ≤ Real.pi) :
    qAngleTo ⟨1, 0, 0, 0⟩ ⟨Real.cos (θ/2), Real.sin (θ/2), 0, 0⟩ = θ := by
  unfold qAngleTo qDot mclamp
  have hcos1 : Real.cos (θ/2) ≤ 1 := Real.cos_le_one _
  have hcosm1 : -1 ≤ Real.cos (θ/2) := Real.neg_one_le_cos _
  have hd : (1 : ℝ) * Real.cos (θ/2) + 0 * Real.sin (θ/2) + 0 * 0 + 0 * 0
      = Real.cos (θ/2) := by ring
  rw [hd, min_eq_right hcos1, max_eq_right hcosm1]
  have hnn : 0 ≤ Real.cos (θ/2) := by
    apply Real.cos_nonneg_of_mem_Icc
    constructor
    · linarith [Real.pi_pos]
    · linarith
  rw [abs_of_nonneg hnn, Real.arccos_cos (by linarith) (by linarith)]
  ring

/-- Counterexample refuting C2 as stated: a started tick at the default
move speed 100, with a first ground impact on a 30-degree slope, ends with
|velocity.z| ≈ 86.6 < 100.  The first-impact orientation snap rebuilds the
velocity along the player's new facing direction at unchanged magnitude,
so the forward-speed floor no longer holds at the end of the tick. -/
theorem claim2_counterexample :
    pcBase.startGame = true ∧ pcBase.moveSpeed = 100 ∧
    |(update pcBase keysNone raysSlope (1/100)).vel.z| < pcBase.moveSpeed := by
  refine ⟨rfl, rfl, ?_⟩
  show |(update pcBase keysNone raysSlope (1/100)).vel.z| < (100 : ℝ)
  -- with no keys held and no up-ray hit, the tick reduces to its body
  have hupd : update pcBase keysNone raysSlope (1/100)
      = tickBody pcBase keysNone raysSlope (1/100) := rfl
  rw [hupd]
  -- evaluate the integration/velocity phases
  have hpre : prePhases pcBase keysNone (1/100) = pcMid := by
    show applyGlobalGravity (minSpeedPhase (movePhase pcBase (1/100))) (1/100)
      = pcMid
    have hmv : movePhase pcBase (1/100)
        = { pcBase with pos := ⟨0, 40, 949⟩ } := by
      unfold movePhase
      norm_num [pcBase, PCState.mk.injEq, V3.mk.injEq]
    rw [hmv]
    have hmsp : minSpeedPhase { pcBase with pos := ⟨(0:ℝ), 40, 949⟩ }
        = { pcBase with pos := ⟨0, 40, 949⟩ } := by
      unfold minSpeedPhase
      rw [if_neg (by norm_num [pcBase])]
    rw [hmsp]
    unfold applyGlobalGravity playerWeight
    norm_num [pcBase, pcMid, PCState.mk.injEq, V3.mk.injEq]
  have hg : groundedCheck pcMid raysSlope = true := by
    have hmin : minIntersect (boundedHits raysSlope) = some hitSlope := rfl
    unfold groundedCheck
    rw [hmin]
    show (if hitSlope.distance ≤ 1 + pcMid.playerRadius then true else false)
      = true
    rw [if_pos (by norm_num [hitSlope, pcMid, pcBase])]
  -- the tick body takes the grounded branch
  have hbody : tickBody pcBase keysNone raysSlope (1/100)
      = clampPlayerToGround (rotatePlayerOnGround pcMidG raysSlope)
          raysSlope := by
    unfold tickBody
    rw [hpre]
    dsimp only
    rw [hg, if_pos rfl]
    rfl
  rw [hbody, clampPlayerToGround_vel]
  -- evaluate the first-impact ground rotation
  have hrotv : (rotatePlayerOnGround pcMidG raysSlope).vel
      = vScale (vNormalize (applyQuat ⟨0, 0, -1⟩
          (rotateTowards ⟨1, 0, 0, 0⟩
            (qMul (qFromAxisAngle ⟨1, 0, 0⟩
              (Real.sign (applyQuat hitSlope.faceNormal
                  (qConjugate hitSlope.objectWorldQuat)).z *
                Real.arccos (vDot ⟨0, 1, 0⟩
                    (applyQuat hitSlope.faceNormal
                      (qConjugate hitSlope.objectWorldQuat)) /
                  (vLength ⟨0, 1, 0⟩ *
                    vLength (applyQuat hitSlope.faceNormal
                      (qConjugate hitSlope.objectWorldQuat))))))
              ⟨1, 0, 0, 0⟩) 100)))
          (vLength ⟨0, -(981/1000), -100⟩) := rfl
  rw [hrotv]
  -- the face normal, rotated back into world coordinates
  have h2m : Real.sqrt 2 * Real.sqrt 2 = 2 :=
    Real.mul_self_sqrt (by norm_num)
  have hnormal : applyQuat hitSlope.faceNormal
      (qConjugate hitSlope.objectWorldQuat)
      = ⟨0, Real.sqrt 3 / 2, 1/2⟩ := by
    have hconj : qConjugate hitSlope.objectWorldQuat
        = ⟨Real.sqrt 2 / 2, -(Real.sqrt 2 / 2), 0, 0⟩ := by
      unfold qConjugate hitSlope
      simp only [Quat.mk.injEq]
      norm_num
    rw [hconj]
    show applyQuat ⟨0, -(1/2), Real.sqrt 3 / 2⟩
        ⟨Real.sqrt 2 / 2, -(Real.sqrt 2 / 2), 0, 0⟩ = _
    rw [applyQuat_xquat]
    simp only [V3.mk.injEq]
    refine ⟨by ring, ?_, ?_⟩
    · linear_combination (Real.sqrt 3 / 4) * h2m
    · linear_combination (1/4 : ℝ) * h2m
  rw [hnormal]
  -- the slope angle is π/6
  have hsign : Real.sign ((⟨0, Real.sqrt 3 / 2, 1/2⟩ : V3)).z = 1 := by
    show Real.sign (1/2 : ℝ) = 1
    exact Real.sign_of_pos (by norm_num)
  have hdot : vDot ⟨0, 1, 0⟩ (⟨0, Real.sqrt 3 / 2, 1/2⟩ : V3)
      = Real.sqrt 3 / 2 := by
    unfold vDot
    ring
  have hlen1 : vLength (⟨0, 1, 0⟩ : V3) = 1 := by
    unfold vLength
    norm_num
  have h3sq : Real.sqrt 3 ^ 2 = 3 := Real.sq_sqrt (by norm_num)
  have hlen2 : vLength (⟨0, Real.sqrt 3 / 2, 1/2⟩ : V3) = 1 := by
    unfold vLength
    have hsum : (0:ℝ)^2 + (Real.sqrt 3 / 2)^2 + (1/2)^2 = 1 := by nlinarith
    rw [hsum, Real.sqrt_one]
  rw [hsign, hdot, hlen1, hlen2, one_mul, one_mul, div_one]
  rw [arccos_sqrt3_half]
  rw [qFromAxisAngle_x, qMul_xquat_id]
  -- the first-impact step 100 covers the whole π/6 rotation
  have hangle : qAngleTo ⟨1, 0, 0, 0⟩
      ⟨Real.cos (Real.pi / 6 / 2), Real.sin (Real.pi / 6 / 2), 0, 0⟩
      = Real.pi / 6 :=
    qAngleTo_id_xquat (Real.pi / 6) (by positivity)
      (by linarith [Real.pi_pos])
  have hrt : rotateTowards ⟨1, 0, 0, 0⟩
      ⟨Real.cos (Real.pi / 6 / 2), Real.sin (Real.pi / 6 / 2), 0, 0⟩ 100
      = ⟨Real.cos (Real.pi / 6 / 2), Real.sin (Real.pi / 6 / 2), 0, 0⟩ := by
    apply rotateTowards_reaches
    · rw [hangle]
      exact ne_of_gt (by positivity)
    · rw [hangle]
      rw [le_div_iff₀ (by positivity)]
      nlinarith [Real.pi_le_four]
  rw [hrt]
  -- the rebuilt direction is (0, 1/2, −√3/2)
  have hsc : 2 * Real.cos (Real.pi / 6 / 2) * Real.sin (Real.pi / 6 / 2)
      = 1/2 := by
    have hs2 := Real.sin_two_mul (Real.pi / 6 / 2)
    have h2x : 2 * (Real.pi / 6 / 2) = Real.pi / 6 := by ring
    rw [h2x, Real.sin_pi_div_six] at hs2
    linear_combination -hs2
  have hcc : Real.cos (Real.pi / 6 / 2) ^ 2 - Real.sin (Real.pi / 6 / 2) ^ 2
      = Real.sqrt 3 / 2 := by
    have hpyth := Real.sin_sq_add_cos_sq (Real.pi / 6 / 2)
    have hc2 := Real.cos_two_mul (Real.pi / 6 / 2)
    have h2x : 2 * (Real.pi / 6 / 2) = Real.pi / 6 := by ring
    rw [h2x, Real.cos_pi_div_six] at hc2
    linarith
  have hdir : applyQuat ⟨0, 0, -1⟩
      ⟨Real.cos (Real.pi / 6 / 2), Real.sin (Real.pi / 6 / 2), 0, 0⟩
      = ⟨0, 1/2, -(Real.sqrt 3 / 2)⟩ := by
    rw [applyQuat_xquat]
    simp only [V3.mk.injEq]
    refine ⟨by ring, ?_, ?_⟩
    · linear_combination hsc
    · linear_combination -hcc
  rw [hdir]
  have hlen3 : vLength (⟨0, 1/2, -(Real.sqrt 3 / 2)⟩ : V3) = 1 := by
    unfold vLength
    have hsum : (0:ℝ)^2 + (1/2)^2 + (-(Real.sqrt 3 / 2))^2 = 1 := by nlinarith
    rw [hsum, Real.sqrt_one]
  have hnorm1 : vNormalize (⟨0, 1/2, -(Real.sqrt 3 / 2)⟩ : V3)
      = ⟨0, 1/2, -(Real.sqrt 3 / 2)⟩ := by
    unfold vNormalize
    rw [hlen3]
    dsimp only
    rw [if_neg one_ne_zero]
    simp only [V3.mk.injEq]
    norm_num
  rw [hnorm1]
  -- the final forward component
  have hL : vLength (⟨0, -(981/1000), -100⟩ : V3)
      = Real.sqrt (10000962361/1000000) := by
    unfold vLength
    norm_num
  have hvz : (vScale ⟨0, 1/2, -(Real.sqrt 3 / 2)⟩
      (vLength (⟨0, -(981/1000), -100⟩ : V3))).z
      = -(Real.sqrt 3 / 2) * vLength (⟨0, -(981/1000), -100⟩ : V3) := rfl
  rw [hvz, hL]
  -- |−(√3/2)·√B| < 100 since 3B < 40000
  have hsB : (0:ℝ) ≤ Real.sqrt (10000962361/1000000) := Real.sqrt_nonneg _
  rw [abs_mul, abs_neg, abs_of_nonneg (by positivity : (0:ℝ) ≤ Real.sqrt 3 / 2),
    abs_of_nonneg hsB]
  have hmul : Real.sqrt 3 * Real.sqrt (10000962361/1000000)
      = Real.sqrt (3 * (10000962361/1000000)) :=
    (Real.sqrt_mul (by norm_num) _).symm
  have hlt : Real.sqrt (3 * (10000962361/1000000)) < 200 := by
    have h1 : (3 * (10000962361/1000000) : ℝ) < 200^2 := by norm_num
    have h2 := Real.sqrt_lt_sqrt (by positivity) h1
    rwa [Real.sqrt_sq (by norm_num : (0:ℝ) ≤ 200)] at h2
  have hprod : Real.sqrt 3 * Real.sqrt (10000962361/1000000) < 200 := by
    rw [hmul]
    exact hlt
  linarith [hprod]

end PC

namespace TG

/-- Each random z-step lies in [450, 530). -/
theorem stepZ_bounds (rz : ℕ → ℚ) (hr : ∀ i, 0 ≤ rz i ∧ rz i < 1) (i : ℕ) :
    450 ≤ stepZ rz i ∧ stepZ rz i < 530 := by
  unfold stepZ
  constructor
  · nlinarith [(hr i).1]
  · nlinarith [(hr i).2]

/-- Every consecutive key-point gap is at least 450 (the first pair's gap
even doubles, because the first key point is pushed with z = 0 after the
accumulator has already advanced). -/
theorem gapZ_big (rz : ℕ → ℚ) (hr : ∀ i, 0 ≤ rz i ∧ rz i < 1) (p : ℕ) :
    450 ≤ gapZ rz p := by
  unfold gapZ keyZ
  cases p with
  | zero =>
    rw [if_neg (by omega), if_pos rfl]
    show 450 ≤ stepZ rz 0 + stepZ rz 1 - 0
    have h0 := stepZ_bounds rz hr 0
    have h1 := stepZ_bounds rz hr 1
    linarith [h0.1, h1.1]
  | succ q =>
    rw [if_neg (by omega), if_neg (by omega)]
    show 450 ≤ zAfter rz (q + 1) + stepZ rz (q + 2) - zAfter rz (q + 1)
    have h2 := stepZ_bounds rz hr (q + 2)
    linarith [h2.1]

/-- Discrete intermediate-value search: a value between `f 0` and `f N`
lies between two consecutive samples. -/
theorem exists_segment (f : ℕ → ℚ) (v : ℚ) :
    ∀ N, 0 < N → f 0 ≤ v → v ≤ f N → ∃ p, p < N ∧ f p ≤ v ∧ v ≤ f (p + 1) := by
  intro N
  induction N with
  | zero => intro h; exact absurd h (by omega)
  | succ n ih =>
    intro _ h0 hN
    by_cases hc : f n ≤ v
    · exact ⟨n, Nat.lt_succ_self n, hc, hN⟩
    · have hvn : v ≤ f n := le_of_not_le hc
      cases Nat.eq_zero_or_pos n with
      | inl hz =>
        subst hz
        exact absurd h0 hc
      | inr hpos =>
        obtain ⟨p, hp, h1, h2⟩ := ih hpos h0 hvn
        exact ⟨p, Nat.lt_succ_of_lt hp, h1, h2⟩

/-- The floored horizontal-segment count of a pair is positive, at most
half the gap, and more than a third of the gap. -/
theorem hSegs_facts (rz : ℕ → ℚ) (hr : ∀ i, 0 ≤ rz i ∧ rz i < 1) (p : ℕ) :
    0 < hSegs rz p ∧ ((hSegs rz p : ℚ)) ≤ gapZ rz p / 2 ∧
      gapZ rz p / 3 < ((hSegs rz p : ℚ)) := by
  have hgap := gapZ_big rz hr p
  have h1 : (1 : ℤ) ≤ hSegs rz p := Int.le_floor.mpr (by push_cast; linarith)
  have h2 : ((hSegs rz p : ℚ)) ≤ gapZ rz p / 2 := Int.floor_le _
  have h3 : gapZ rz p / 2 - 1 < ((hSegs rz p : ℚ)) := Int.sub_one_lt_floor _
  exact ⟨by omega, h2, by linarith⟩

/-- The sampling stride of a pair is positive, is below the 6-unit
tolerance window, and multiplies back to the gap. -/
theorem deltaZ_facts (rz : ℕ → ℚ) (hr : ∀ i, 0 ≤ rz i ∧ rz i < 1) (p : ℕ) :
    0 < deltaZ rz p ∧ deltaZ rz p < 6 ∧
      ((hSegs rz p : ℚ)) * deltaZ rz p = gapZ rz p := by
  obtain ⟨hn, hle, hgt⟩ := hSegs_facts rz hr p
  have hgap := gapZ_big rz hr p
  have hnQ : (0 : ℚ) < ((hSegs rz p : ℚ)) := by exact_mod_cast hn
  unfold deltaZ
  refine ⟨div_pos (by linarith) hnQ, ?_, ?_⟩
  · rw [div_lt_iff₀ hnQ]
    nlinarith
  · field_simp

/-- The last sample of a pair lands exactly on the next key point. -/
theorem sampleZ_last (rz : ℕ → ℚ) (hr : ∀ i, 0 ≤ rz i ∧ rz i < 1) (p : ℕ) :
    sampleZ rz p ((hSegs rz p).toNat) = keyZ rz (p + 1) := by
  obtain ⟨hd1, hd2, hd3⟩ := deltaZ_facts rz hr p
  obtain ⟨hn, -, -⟩ := hSegs_facts rz hr p
  unfold sampleZ
  have hcast : (((hSegs rz p).toNat : ℕ) : ℚ) = ((hSegs rz p : ℚ)) := by
    have h := Int.toNat_of_nonneg (le_of_lt hn)
    exact_mod_cast congrArg (fun n : ℤ => (n : ℚ)) h
  rw [hcast, hd3]
  unfold gapZ
  ring

/-- Every pair sample is a member of the full curve sequence. -/
theorem sampleZ_mem (rz : ℕ → ℚ) (p j : ℕ) (hp : p < 19)
    (hj : j < (hSegs rz p).toNat + 1) :
    sampleZ rz p j ∈ curveZ rz := by
  unfold curveZ
  rw [List.mem_flatMap]
  refine ⟨p, List.mem_range.mpr hp, ?_⟩
  unfold pairSamples
  exact List.mem_map.mpr ⟨j, List.mem_range.mpr hj, rfl⟩

/-- Any value between the first and last key point is within the strict ±6
window of some curve sample, so the `find` lookup succeeds. -/
theorem findCurve_hit (rz : ℕ → ℚ) (hr : ∀ i, 0 ≤ rz i ∧ rz i < 1) (v : ℚ)
    (h0 : 0 ≤ v) (hv : v ≤ keyZ rz 19) :
    ∃ z, findCurve (curveZ rz) v = some z := by
  have hk0 : keyZ rz 0 = 0 := if_pos rfl
  obtain ⟨p, hp, hpv, hpv2⟩ := exists_segment (keyZ rz) v 19 (by omega)
    (by rw [hk0]; exact h0) hv
  obtain ⟨hdpos, hdlt, hdmul⟩ := deltaZ_facts rz hr p
  obtain ⟨hn, -, -⟩ := hSegs_facts rz hr p
  have hw0 : 0 ≤ v - keyZ rz p := by linarith
  have hwgap : v - keyZ rz p ≤ gapZ rz p := by
    unfold gapZ
    linarith
  have hj0 : 0 ≤ ⌊(v - keyZ rz p) / deltaZ rz p⌋ :=
    Int.le_floor.mpr (by positivity)
  have hjn : ⌊(v - keyZ rz p) / deltaZ rz p⌋ ≤ hSegs rz p := by
    have h1 : (v - keyZ rz p) / deltaZ rz p ≤ ((hSegs rz p : ℚ)) := by
      rw [div_le_iff₀ hdpos]
      linarith [hdmul]
    calc ⌊(v - keyZ rz p) / deltaZ rz p⌋ ≤ ⌊((hSegs rz p : ℚ))⌋ :=
          Int.floor_le_floor h1
      _ = hSegs rz p := Int.floor_intCast _
  have hjcast : ((⌊(v - keyZ rz p) / deltaZ rz p⌋.toNat : ℕ) : ℚ)
      = ((⌊(v - keyZ rz p) / deltaZ rz p⌋ : ℚ)) := by
    have h := Int.toNat_of_nonneg hj0
    exact_mod_cast congrArg (fun n : ℤ => (n : ℚ)) h
  have hfl1 : ((⌊(v - keyZ rz p) / deltaZ rz p⌋ : ℚ)) * deltaZ rz p
      ≤ v - keyZ rz p := by
    have h := Int.floor_le ((v - keyZ rz p) / deltaZ rz p)
    have h2 : ((⌊(v - keyZ rz p) / deltaZ rz p⌋ : ℚ)) * deltaZ rz p
        ≤ ((v - keyZ rz p) / deltaZ rz p) * deltaZ rz p := by nlinarith
    calc ((⌊(v - keyZ rz p) / deltaZ rz p⌋ : ℚ)) * deltaZ rz p
        ≤ ((v - keyZ rz p) / deltaZ rz p) * deltaZ rz p := h2
      _ = v - keyZ rz p := by field_simp
  have hfl2 : v - keyZ rz p
      < (((⌊(v - keyZ rz p) / deltaZ rz p⌋ : ℚ)) + 1) * deltaZ rz p := by
    have h := Int.lt_floor_add_one ((v - keyZ rz p) / deltaZ rz p)
    have h2 : ((v - keyZ rz p) / deltaZ rz p) * deltaZ rz p
        < (((⌊(v - keyZ rz p) / deltaZ rz p⌋ : ℚ)) + 1) * deltaZ rz p := by
      nlinarith
    calc v - keyZ rz p = ((v - keyZ rz p) / deltaZ rz p) * deltaZ rz p := by
          field_simp
      _ < (((⌊(v - keyZ rz p) / deltaZ rz p⌋ : ℚ)) + 1) * deltaZ rz p := h2
  have hz1 : sampleZ rz p (⌊(v - keyZ rz p) / deltaZ rz p⌋.toNat) ≤ v := by
    unfold sampleZ
    rw [hjcast]
    linarith
  have hz2 : v < sampleZ rz p (⌊(v - keyZ rz p) / deltaZ rz p⌋.toNat)
      + deltaZ rz p := by
    unfold sampleZ
    rw [hjcast]
    linarith
  have hmem : sampleZ rz p (⌊(v - keyZ rz p) / deltaZ rz p⌋.toNat)
      ∈ curveZ rz := by
    refine sampleZ_mem rz p _ hp ?_
    have h := Int.toNat_le_toNat hjn
    omega
  have hpred : findPred v
      (sampleZ rz p (⌊(v - keyZ rz p) / deltaZ rz p⌋.toNat)) = true := by
    unfold findPred
    have hb1 : v - 6 < sampleZ rz p (⌊(v - keyZ rz p) / deltaZ rz p⌋.toNat) := by
      linarith
    have hb2 : sampleZ rz p (⌊(v - keyZ rz p) / deltaZ rz p⌋.toNat) < v + 6 := by
      linarith
    simp [hb1, hb2]
  cases hfind : (curveZ rz).find? (findPred v) with
  | none =>
    exfalso
    rw [List.find?_eq_none] at hfind
    exact absurd hpred (hfind _ hmem)
  | some z0 => exact ⟨z0, hfind⟩

/-- The first curve sample has z-coordinate 0. -/
theorem curveZ_head (rz : ℕ → ℚ) : (curveZ rz).headD 0 = 0 := by
  unfold curveZ
  rw [show (19 : ℕ) = 18 + 1 from rfl, List.range_succ_eq_map,
    List.flatMap_cons]
  unfold pairSamples
  rw [List.range_succ_eq_map, List.map_cons, List.cons_append]
  show sampleZ rz 0 0 = 0
  unfold sampleZ keyZ
  rw [if_pos rfl]
  push_cast
  ring

/-- The last curve sample has z-coordinate `keyZ 19`. -/
theorem curveZ_last (rz : ℕ → ℚ) (hr : ∀ i, 0 ≤ rz i ∧ rz i < 1) :
    (curveZ rz).getLastD 0 = keyZ rz 19 := by
  unfold curveZ
  rw [List.getLastD_eq_getLast?]
  rw [show (19 : ℕ) = 18 + 1 from rfl, List.range_succ, List.flatMap_append]
  have h18 : ([18] : List ℕ).flatMap (pairSamples rz) = pairSamples rz 18 := by
    simp
  rw [h18]
  have hplast : (pairSamples rz 18).getLast?
      = some (sampleZ rz 18 ((hSegs rz 18).toNat)) := by
    unfold pairSamples
    rw [List.range_succ, List.map_append]
    simp only [List.map_cons, List.map_nil]
    rw [List.getLast?_concat]
  rw [List.getLast?_append_of_ne_nil _ (by
    intro hx
    rw [hx] at hplast
    simp at hplast)]
  rw [hplast]
  show sampleZ rz 18 ((hSegs rz 18).toNat) = keyZ rz 19
  exact sampleZ_last rz hr 18

/-- Lower bound on the z accumulator. -/
theorem zAfter_lb (rz : ℕ → ℚ) (hr : ∀ i, 0 ≤ rz i ∧ rz i < 1) (i : ℕ) :
    450 * ((i : ℚ) + 1) ≤ zAfter rz i := by
  induction i with
  | zero =>
    show 450 * ((0 : ℚ) + 1) ≤ stepZ rz 0
    have h := stepZ_bounds rz hr 0
    linarith [h.1]
  | succ n ih =>
    have h := stepZ_bounds rz hr (n + 1)
    have hz : zAfter rz (n + 1) = zAfter rz n + stepZ rz (n + 1) := rfl
    rw [hz]
    push_cast
    push_cast at ih
    linarith [h.1]

/-- The generated terrain length is the z-span of the key points. -/
theorem terrainLength_eq (rz : ℕ → ℚ) (hr : ∀ i, 0 ≤ rz i ∧ rz i < 1) :
    terrainLength rz = keyZ rz 19 := by
  unfold terrainLength
  rw [curveZ_head rz, curveZ_last rz hr]
  ring

/-- The terrain is at least 9000 units long. -/
theorem keyZ19_lb (rz : ℕ → ℚ) (hr : ∀ i, 0 ≤ rz i ∧ rz i < 1) :
    9000 ≤ keyZ rz 19 := by
  unfold keyZ
  rw [if_neg (by omega)]
  have h := zAfter_lb rz hr 19
  push_cast at h
  linarith

/-- The plane's row count is at least 1 and at most a twentieth of the
terrain length. -/
theorem gridY_facts (rz : ℕ → ℚ) (hr : ∀ i, 0 ≤ rz i ∧ rz i < 1) :
    1 ≤ gridY rz ∧ ((gridY rz : ℚ)) ≤ terrainLength rz * (5 / 100) := by
  have hL := keyZ19_lb rz hr
  have hLe := terrainLength_eq rz hr
  constructor
  · exact Int.le_floor.mpr (by rw [hLe]; push_cast; linarith)
  · exact Int.floor_le _

/-- Claim C3: for every vertex of the generated plane mesh, the search for
a curve sample within the ±6 window of the vertex's offset y coordinate
finds a sample, so the assigned height is never a missing value; and an
unmatched lookup would surface as a hard error (the `TypeError` of reading
`curveValue.y` on `undefined`), never silently entering the geometry. -/
theorem claim3_vertex_lookup (rz : ℕ → ℚ)
    (hr : ∀ i, 0 ≤ rz i ∧ rz i < 1) :
    (∀ i, i < vertexCount rz → ∃ z, vertexLookup rz i = Except.ok z) ∧
    (∀ i, findCurve (curveZ rz) (vertexY rz i + firstVertexY rz) = none →
      vertexLookup rz i
        = Except.error "TypeError: cannot read properties of undefined") := by
  constructor
  · intro i hi
    have hL := terrainLength_eq rz hr
    have hL9 := keyZ19_lb rz hr
    obtain ⟨hg1, hg2⟩ := gridY_facts rz hr
    have hgQ : (1 : ℚ) ≤ ((gridY rz : ℚ)) := by exact_mod_cast hg1
    have hLpos : 0 < terrainLength rz := by rw [hL]; linarith
    have hval : vertexY rz i + firstVertexY rz
        = terrainLength rz
          - ((i / 2 : ℕ) : ℚ) * (terrainLength rz / ((gridY rz : ℚ))) := by
      unfold firstVertexY vertexY
      push_cast [Nat.zero_div]
      ring
    have hiy : (i / 2 : ℕ) ≤ (gridY rz).toNat := by
      unfold vertexCount at hi
      omega
    have hiyQ : (((i / 2 : ℕ) : ℚ)) ≤ ((gridY rz : ℚ)) := by
      have h2 : (((gridY rz).toNat : ℕ) : ℚ) = ((gridY rz : ℚ)) := by
        have h3 : (((gridY rz).toNat : ℕ) : ℤ) = gridY rz :=
          Int.toNat_of_nonneg (by omega)
        exact_mod_cast congrArg (fun n : ℤ => (n : ℚ)) h3
      rw [← h2]
      exact_mod_cast hiy
    have hterm0 : 0 ≤ (((i / 2 : ℕ) : ℚ))
        * (terrainLength rz / ((gridY rz : ℚ))) := by positivity
    have hterm1 : (((i / 2 : ℕ) : ℚ))
        * (terrainLength rz / ((gridY rz : ℚ))) ≤ terrainLength rz := by
      have hgpos : (0 : ℚ) < ((gridY rz : ℚ)) := by linarith
      have hdiv : 0 < terrainLength rz / ((gridY rz : ℚ)) := by positivity
      calc (((i / 2 : ℕ) : ℚ)) * (terrainLength rz / ((gridY rz : ℚ)))
          ≤ ((gridY rz : ℚ)) * (terrainLength rz / ((gridY rz : ℚ))) := by
            nlinarith
        _ = terrainLength rz := by field_simp
    have h0v : 0 ≤ vertexY rz i + firstVertexY rz := by
      rw [hval]
      linarith
    have hvL : vertexY rz i + firstVertexY rz ≤ keyZ rz 19 := by
      rw [hval, ← hL]
      linarith
    obtain ⟨z, hz⟩ := findCurve_hit rz hr _ h0v hvL
    refine ⟨z, ?_⟩
    unfold vertexLookup
    rw [hz]
  · intro i hnone
    unfold vertexLookup
    rw [hnone]

/-- Witness for C3 at the constant random stream 0: the very first vertex
lookup succeeds. -/
theorem claim3_witness :
    ∃ z, vertexLookup (fun _ => (0 : ℚ)) 0 = Except.ok z := by
  refine (claim3_vertex_lookup (fun _ => 0)
    (fun i => ⟨le_refl 0, by norm_num⟩)).1 0 ?_
  unfold vertexCount
  omega

end TG

end TinyWings
